import Mathlib

/-!
# System Video module (`engine/system/win/sys_video.cpp`)

A shallow embedding of `sys_video_c`: the window set-up routine `Apply`, the
monitor registry, and the input callbacks that `Apply` installs on the window.

Conventions of the embedding.

* C `int` values are `Int`.  The `int` arithmetic of the module that can leave the
  32-bit range (the coordinate differences of the double-click test, the right and
  bottom edges of a monitor, the centring of the window) is reduced to the range by
  `wrapInt`, as the platform does.  The places where the source narrows a value
  (`byte k = ...`, `e.button = sg_key`, `char ch = ...`) are modelled by `toByte`
  and `toChar`.
* The flag word `sys_vidSet_s::flags` is the 32-bit pattern of the C `int`, held in a
  `Nat`; `&`, `|` and `~` act on the pattern.
* `double` arguments of the callbacks are values of `Real64`.
* `std::chrono::system_clock::time_point` is the integer tick count of the clock;
  `Env.ticksPerMs` is the number of ticks in a millisecond.
* Calls of `sys->core->KeyEvent(key, type)` are collected, in call order, in a list
  of `Event`.
* Constants and tables declared in headers outside this file (`KEY_*`, `VID_*`,
  `GlfwKeyToKey`, `GlfwKeyExtraChar`) are parameters; the macro `Vector2Copy` of such
  a header is modelled by a function.
* The array `mon` has sixteen slots.  An access outside them has no defined
  behaviour; the functions that index `mon` return an `Option` and yield `none` there.
-/

set_option linter.unusedVariables false

namespace SysVideo

/-! ## Platform constants (`GLFW/glfw3.h`) -/

def GLFW_RELEASE : Int := 0
def GLFW_PRESS : Int := 1
def GLFW_REPEAT : Int := 2

def GLFW_MOUSE_BUTTON_LEFT : Int := 0
def GLFW_MOUSE_BUTTON_RIGHT : Int := 1
def GLFW_MOUSE_BUTTON_MIDDLE : Int := 2
def GLFW_MOUSE_BUTTON_4 : Int := 3
def GLFW_MOUSE_BUTTON_5 : Int := 4

/-! ## Engine-side declarations used by the module -/

/-- Event kinds of `keyEvent_s`, the second argument of `core->KeyEvent`. -/
inductive keyEvent_s where
  | KE_KEYDOWN
  | KE_KEYUP
  | KE_DBLCLK
  | KE_CHAR
  deriving DecidableEq, Repr

open keyEvent_s

/-- One call `sys->core->KeyEvent(key, type)`. -/
structure Event where
  key : Int
  type : keyEvent_s
  deriving DecidableEq, Repr

/-- Engine key codes named by the module; their values come from the engine's
key list header. -/
structure KeyCodes where
  KEY_LMOUSE : Int
  KEY_MMOUSE : Int
  KEY_RMOUSE : Int
  KEY_MOUSE4 : Int
  KEY_MOUSE5 : Int
  KEY_MWHEELUP : Int
  KEY_MWHEELDOWN : Int
  deriving DecidableEq, Repr

/-- The five mouse-button codes, in the order of the `switch`. -/
def KeyCodes.mouseCodes (kc : KeyCodes) : List Int :=
  [kc.KEY_LMOUSE, kc.KEY_MMOUSE, kc.KEY_RMOUSE, kc.KEY_MOUSE4, kc.KEY_MOUSE5]

/-- Every mouse-button code is representable in a `byte`. -/
def KeyCodes.InByteRange (kc : KeyCodes) : Prop :=
  ∀ k ∈ kc.mouseCodes, 0 ≤ k ∧ k < 256

/-- The five mouse-button codes are pairwise different. -/
def KeyCodes.Distinct (kc : KeyCodes) : Prop :=
  kc.mouseCodes.Nodup

instance (kc : KeyCodes) : Decidable kc.InByteRange := by
  unfold KeyCodes.InByteRange; infer_instance

instance (kc : KeyCodes) : Decidable kc.Distinct := by
  unfold KeyCodes.Distinct; infer_instance

/-- What the callbacks take from their surroundings: the key-code constants, the two
key tables of `sys_main_c`, and the resolution of `system_clock`. -/
structure Env where
  keys : KeyCodes
  GlfwKeyToKey : Int → Int
  GlfwKeyExtraChar : Int → Int
  ticksPerMs : Int

/-- Conversion to `byte` (`unsigned char`). -/
def toByte (v : Int) : Int := v % 256

/-- Conversion to `char` (signed, eight bits). -/
def toChar (v : Int) : Int := (v + 128) % 256 - 128

/-- The value of an `int` computation whose mathematical result is `v`: reduction to
the 32-bit two's complement range. -/
def wrapInt (v : Int) : Int := (v + 2 ^ 31) % 2 ^ 32 - 2 ^ 31

/-- The function `abs` on `int`. -/
def absInt (v : Int) : Int := wrapInt (v.natAbs : Int)

/-- The integer `v` is representable as `int`. -/
def InInt32 (v : Int) : Prop := -2 ^ 31 ≤ v ∧ v < 2 ^ 31

instance (v : Int) : Decidable (InInt32 v) := by
  unfold InInt32; infer_instance

/-- A `double`: a finite value, an infinity, or a NaN. -/
inductive Real64 where
  | finite (q : ℚ)
  | posInf
  | negInf
  | nan
  deriving DecidableEq

/-- The comparison `v > 0` on a `double`. -/
def Real64.gtZero : Real64 → Bool
  | .finite q => decide (0 < q)
  | .posInf => true
  | .negInf => false
  | .nan => false

/-- The comparison `v < 0` on a `double`. -/
def Real64.ltZero : Real64 → Bool
  | .finite q => decide (q < 0)
  | .posInf => false
  | .negInf => true
  | .nan => false

/-- The cast `(int)v`: truncation toward zero, for a value whose truncation is
representable as `int`.  The cast of any other value has no defined result in the
language: the model keeps the truncation of a finite value and gives a non-finite
one the least `int`, and the statements about casts take coordinates in the `int`
range. -/
def Real64.toInt : Real64 → Int
  | .finite q => Int.tdiv q.num q.den
  | _ => -2 ^ 31

/-! ## Data of `sys_video_c` -/

structure CursorPos where
  x : Int
  y : Int
  deriving DecidableEq, Repr

structure ClickEvent where
  time : Int
  pos : CursorPos
  button : Int
  deriving DecidableEq, Repr

/-- One slot of `mon[16]`. -/
structure MonitorSpec where
  hnd : Nat
  left : Int
  top : Int
  width : Int
  height : Int
  deriving DecidableEq, Repr

/-- The saved geometry inside `sys_vidSet_s`. -/
structure sys_vidSave_s where
  pos : Int × Int
  size : Int × Int
  maximised : Bool
  deriving DecidableEq, Repr

/-- The fields of `sys_vidSet_s` that the module reads. -/
structure sys_vidSet_s where
  shown : Bool
  flags : Nat
  display : Int
  mode : Int × Int
  minSize : Int × Int
  save : sys_vidSave_s
  deriving DecidableEq, Repr

/-- The member `vid` inherited from `sys_IVideo`. -/
structure vid_s where
  pos : Int × Int
  size : Int × Int
  fbSize : Int × Int
  maximised : Bool
  deriving DecidableEq, Repr

/-- The object `sys_video_c` (the title buffer is left out). -/
structure sys_video_c where
  initialised : Bool
  wnd : Option Nat
  numMon : Int
  priMon : Int
  mon : Fin 16 → MonitorSpec
  defRes : Int × Int
  cur : sys_vidSet_s
  scrSize : Int × Int
  minSize : Int × Int
  cursorInWindow : Bool
  lastCursorPos : Option CursorPos
  lastClick : Option ClickEvent
  vid : vid_s

/-- The part of `sys_main_c` the callbacks reach through the window user pointer,
together with the video object. -/
structure SysState where
  video : sys_video_c
  heldKeyState : Int → Bool

/-! ## Input callbacks installed by `Apply` -/

/-- The callback given to `glfwSetCursorEnterCallback`. -/
def cursorEnterCallback (s : SysState) (entered : Int) : SysState :=
  let is_inside := entered != 0
  let video := { s.video with cursorInWindow := is_inside }
  if !is_inside then
    { s with video := { video with lastCursorPos := none } }
  else
    { s with video := video }

/-- The callback given to `glfwSetCursorPosCallback`. -/
def cursorPosCallback (s : SysState) (x y : Real64) : SysState :=
  { s with video := { s.video with lastCursorPos := some ⟨x.toInt, y.toInt⟩ } }

/-- The callback given to `glfwSetCharCallback`. -/
def charCallback (codepoint : Int) : List Event :=
  [⟨codepoint, KE_CHAR⟩]

/-- The callback given to `glfwSetKeyCallback`. -/
def keyCallback (env : Env) (s : SysState) (key scancode action mods : Int) :
    SysState × List Event :=
  let k := toByte (env.GlfwKeyToKey key)
  if k ≠ 0 then
    let is_down := action == GLFW_PRESS || action == GLFW_REPEAT
    let s1 := { s with heldKeyState := Function.update s.heldKeyState k is_down }
    let ev := Event.mk k (if is_down then KE_KEYDOWN else KE_KEYUP)
    let ch := toChar (env.GlfwKeyExtraChar key)
    if is_down && ch != 0 then
      (s1, [ev, ⟨ch, KE_CHAR⟩])
    else
      (s1, [ev])
  else
    (s, [])

/-- The `switch` of the mouse-button callback; `none` is its `default: return`. -/
def sgKeyOf (kc : KeyCodes) (button : Int) : Option Int :=
  if button = GLFW_MOUSE_BUTTON_LEFT then some kc.KEY_LMOUSE
  else if button = GLFW_MOUSE_BUTTON_MIDDLE then some kc.KEY_MMOUSE
  else if button = GLFW_MOUSE_BUTTON_RIGHT then some kc.KEY_RMOUSE
  else if button = GLFW_MOUSE_BUTTON_4 then some kc.KEY_MOUSE4
  else if button = GLFW_MOUSE_BUTTON_5 then some kc.KEY_MOUSE5
  else none

/-- The constant `DOUBLECLICK_DELAY` (500 ms) in clock ticks. -/
def DOUBLECLICK_DELAY (env : Env) : Int := 500 * env.ticksPerMs

def DOUBLECLICK_RANGE : Int := 5

/-- The test "was the last click with the same button, recent and close enough?";
the result is the event type after the test. -/
def clickType (env : Env) (lastClick : Option ClickEvent) (sg_key now : Int)
    (curPos : CursorPos) (sg_type : keyEvent_s) : keyEvent_s :=
  match lastClick with
  | some lc =>
    if lc.button = sg_key then
      let durationSinceClick := now - lc.time
      let prevPos := lc.pos
      if durationSinceClick ≤ DOUBLECLICK_DELAY env ∧
          absInt (wrapInt (prevPos.x - curPos.x)) ≤ DOUBLECLICK_RANGE ∧
          absInt (wrapInt (prevPos.y - curPos.y)) ≤ DOUBLECLICK_RANGE then
        KE_DBLCLK
      else sg_type
    else sg_type
  | none => sg_type

/-- The callback given to `glfwSetMouseButtonCallback`; `now` is the value of
`system_clock::now()` read inside it. -/
def mouseButtonCallback (env : Env) (s : SysState) (button action mods : Int)
    (now : Int) : SysState × List Event :=
  match sgKeyOf env.keys button with
  | none => (s, [])
  | some sg_key =>
    let is_down := action == GLFW_PRESS
    let held := Function.update s.heldKeyState sg_key is_down
    let sg_type0 := if is_down then KE_KEYDOWN else KE_KEYUP
    match is_down, s.video.lastCursorPos with
    | true, some curPos =>
      let sg_type := clickType env s.video.lastClick sg_key now curPos sg_type0
      let lastClick :=
        if sg_type = KE_DBLCLK then none
        else some { time := now, pos := curPos, button := toByte sg_key }
      ({ video := { s.video with lastClick := lastClick }, heldKeyState := held },
        [⟨sg_key, sg_type⟩])
    | _, _ =>
      ({ s with heldKeyState := held }, [⟨sg_key, sg_type0⟩])

/-- The callback given to `glfwSetScrollCallback`. -/
def scrollCallback (kc : KeyCodes) (xoffset yoffset : Real64) : List Event :=
  if yoffset.gtZero then
    [⟨kc.KEY_MWHEELUP, KE_KEYDOWN⟩, ⟨kc.KEY_MWHEELUP, KE_KEYUP⟩]
  else if yoffset.ltZero then
    [⟨kc.KEY_MWHEELDOWN, KE_KEYDOWN⟩, ⟨kc.KEY_MWHEELDOWN, KE_KEYUP⟩]
  else
    []

/-- A notification delivered by the windowing layer to one of the input callbacks. -/
inductive Notification where
  | cursorEnter (entered : Int)
  | cursorPos (x y : Real64)
  | char (codepoint : Int)
  | key (key scancode action mods : Int)
  | mouseButton (button action mods : Int) (now : Int)
  | scroll (xoffset yoffset : Real64)

/-- Whether a notification is a cursor-move notification. -/
def Notification.isCursorPos : Notification → Bool
  | .cursorPos _ _ => true
  | _ => false

/-- Whether a notification is a mouse-button press. -/
def Notification.isPress : Notification → Bool
  | .mouseButton _ action _ _ => action == GLFW_PRESS
  | _ => false

/-- Delivery of one notification: the callback registered for it runs. -/
def step (env : Env) (s : SysState) : Notification → SysState × List Event
  | .cursorEnter entered => (cursorEnterCallback s entered, [])
  | .cursorPos x y => (cursorPosCallback s x y, [])
  | .char codepoint => (s, charCallback codepoint)
  | .key key scancode action mods => keyCallback env s key scancode action mods
  | .mouseButton button action mods now => mouseButtonCallback env s button action mods now
  | .scroll xoffset yoffset => (s, scrollCallback env.keys xoffset yoffset)

/-- Delivery of a sequence of notifications, one at a time; the events of all of
them in order. -/
def run (env : Env) (s : SysState) : List Notification → SysState × List Event
  | [] => (s, [])
  | n :: rest =>
    let r := step env s n
    let r2 := run env r.1 rest
    (r2.1, r.2 ++ r2.2)

/-! ## Monitor registry and `Apply` -/

/-- The `VID_*` flag constants of the settings word. -/
structure VidFlags where
  VID_TOPMOST : Nat
  VID_RESIZABLE : Nat
  VID_MAXIMIZE : Nat
  VID_USESAVED : Nat
  deriving DecidableEq, Repr

def VidFlags.masks (vf : VidFlags) : List Nat :=
  [vf.VID_TOPMOST, vf.VID_RESIZABLE, vf.VID_MAXIMIZE, vf.VID_USESAVED]

/-- The flag constants are non-empty 32-bit masks with no bit in common. -/
def VidFlags.WellFormed (vf : VidFlags) : Prop :=
  (∀ m ∈ vf.masks, 0 < m ∧ m < 2 ^ 32) ∧ vf.masks.Pairwise (fun a b => a &&& b = 0)

instance (vf : VidFlags) : Decidable vf.WellFormed := by
  unfold VidFlags.WellFormed; infer_instance

/-- The operator `~` on a 32-bit pattern. -/
def bitNot32 (v : Nat) : Nat := (2 ^ 32 - 1) ^^^ (v % 2 ^ 32)

/-- The truth value of `flags & mask`. -/
def flagSet (flags mask : Nat) : Bool := flags &&& mask != 0

/-- What the windowing layer and the rest of the system answer during one call of
`Apply`. `monitors` lists, in enumeration order, handle, position and video mode of
each monitor; `createWindow` is the handle returned by `glfwCreateWindow`, `none`
being the null handle; `framebufferSize` and `windowSize` are the answers of
`glfwGetFramebufferSize` and `glfwGetWindowSize` for a window asked to have the
given size, size limits and position. -/
structure Platform where
  monitors : List MonitorSpec
  win32 : Bool
  cursor : Int × Int
  debuggerRunning : Bool
  createWindow : Option Nat
  errDesc : String
  framebufferSize : Int × Int → Int × Int → Int × Int → Int × Int
  windowSize : Int × Int → Int × Int → Int × Int → Int × Int

/-- The function `PlatformGetCursorPos`: the global cursor position where the query
is implemented (`_WIN32`), nothing elsewhere. -/
def PlatformGetCursorPos (p : Platform) : Option (Int × Int) :=
  if p.win32 then some p.cursor else none

/-- Calls made on the windowing layer by `Apply`, as far as they carry data of the
module. -/
inductive PlatformCall where
  | setWindowSize (w h : Int)
  | showWindow
  | conWinSetForeground
  | createWindow (w h : Int) (resizable floating maximized : Bool)
  | installCallbacks
  | setWindowSizeLimits (minW minH : Int)
  | setWindowPos (x y : Int)
  deriving DecidableEq, Repr

/-- Read of `mon[i]`; `none` when `i` is outside the sixteen slots. -/
def monAt (mon : Fin 16 → MonitorSpec) (i : Int) : Option MonitorSpec :=
  if h : 0 ≤ i ∧ i < 16 then some (mon ⟨i.toNat, by omega⟩) else none

/-- The loop `for (i = 0; i < numMon; ++i) mon[i] = ...` from index `i` on; `none`
when it stores outside the sixteen slots. -/
def storeMonitors : List MonitorSpec → Nat → (Fin 16 → MonitorSpec) →
    Option (Fin 16 → MonitorSpec)
  | [], _, mon => some mon
  | m :: rest, i, mon =>
    if h : i < 16 then storeMonitors rest (i + 1) (Function.update mon ⟨i, h⟩ m)
    else none

/-- The function `RefreshMonitorInfo`. -/
def RefreshMonitorInfo (monitors : List MonitorSpec) (self : sys_video_c) :
    Option sys_video_c :=
  (storeMonitors monitors 0 self.mon).map fun mon =>
    { self with numMon := monitors.length, mon := mon }

/-- The containment test of the monitor search. -/
def cursorInMonitor (m : MonitorSpec) (curX curY : Int) : Bool :=
  let right := wrapInt (m.left + m.width)
  let bottom := wrapInt (m.top + m.height)
  decide (curX ≥ m.left ∧ curY ≥ m.top ∧ curX < right ∧ curY < bottom)

/-- The loop `for (m = ..; m < numMon; ++m)` of the monitor search with `remaining`
iterations left; the result is the value of `cur.display` after the loop, which was
set to 0 before it. -/
def findCursorMonitor (mon : Fin 16 → MonitorSpec) (curX curY : Int) :
    Nat → Nat → Option Int
  | 0, _ => some 0
  | remaining + 1, m =>
    match monAt mon m with
    | none => none
    | some spec =>
      if cursorInMonitor spec curX curY then some m
      else findCursorMonitor mon curX curY remaining (m + 1)

/-- The block "Determine which monitor to create window on": the resolved
`cur.display` and the arguments of the calls of `con->Warning`. -/
def resolveDisplay (numMon : Int) (mon : Fin 16 → MonitorSpec) (display : Int)
    (curPos : Option (Int × Int)) : Option (Int × List (Int × Int)) :=
  if display ≥ numMon then
    some (0, [(display, numMon - 1)])
  else if display < 0 then
    match curPos with
    | some (curX, curY) =>
      (findCursorMonitor mon curX curY numMon.toNat 0).map fun d => (d, [])
    | none => some (0, [])
  else
    some (display, [])

/-- What one call of `Apply` leaves behind: the object, the return value, the
arguments of `con->Warning`, the error descriptions printed, and the calls made on
the windowing layer. -/
structure ApplyResult where
  state : sys_video_c
  ret : Int
  warnings : List (Int × Int)
  prints : List String
  calls : List PlatformCall

/-- Modelled from the spec: the macro `Vector2Copy(src, dst)` is declared in a header
outside this file; `Apply` uses it to substitute the default resolution for the
requested one and to copy resolutions, so it stores both components of `src` in
`dst`.  The result is the new content of `dst`. -/
def Vector2Copy (src dst : Int × Int) : Int × Int := (src.1, src.2)

/-- The expression `(size - win)/2 + origin` by which `Apply` centres the window on
one axis, in `int` arithmetic; the division truncates. -/
def centreAxis (size win origin : Int) : Int :=
  wrapInt (Int.tdiv (wrapInt (size - win)) 2 + origin)

/-- The body of `Apply` from `defRes[0] = mon[cur.display].width` on, with the
refreshed registry `mon`, the resolved `display` and its slot `target`. -/
def applyWindow (vf : VidFlags) (p : Platform) (self : sys_video_c) (set : sys_vidSet_s)
    (mon : Fin 16 → MonitorSpec) (display : Int) (warnings : List (Int × Int))
    (target : MonitorSpec) : ApplyResult :=
  let defRes : Int × Int := (target.width, target.height)
  let minSize : Int × Int := (0, 0)
  let flags1 := if p.debuggerRunning then set.flags &&& bitNot32 vf.VID_TOPMOST else set.flags
  let mode1 := if set.mode.1 = 0 then Vector2Copy defRes set.mode else set.mode
  let scrSize := Vector2Copy defRes (self.scrSize)
  -- window rectangle: position, flag word and resolution after the block
  let wrec : (Int × Int) × Nat × (Int × Int) :=
    if flagSet flags1 vf.VID_USESAVED then
      if set.save.maximised then
        ((set.save.pos.1, set.save.pos.2), flags1 ||| vf.VID_MAXIMIZE, mode1)
      else
        ((set.save.pos.1, set.save.pos.2), flags1, set.save.size)
    else
      ((centreAxis scrSize.1 mode1.1 target.left,
        centreAxis scrSize.2 mode1.2 target.top), flags1, mode1)
  let pos : Int × Int := wrec.1
  let flags2 := wrec.2.1
  let mode2 := wrec.2.2
  let cur : sys_vidSet_s := { set with display := display, flags := flags2, mode := mode2 }
  let wnd := if self.initialised then self.wnd else p.createWindow
  let calls1 :=
    if self.initialised then
      PlatformCall.setWindowSize mode2.1 mode2.2 ::
        (if cur.shown then [PlatformCall.showWindow, PlatformCall.conWinSetForeground] else [])
    else
      [PlatformCall.createWindow mode2.1 mode2.2 (flagSet flags2 vf.VID_RESIZABLE)
        (flagSet flags2 vf.VID_TOPMOST) (flagSet flags2 vf.VID_MAXIMIZE),
       PlatformCall.installCallbacks]
  let prints := if !self.initialised && wnd.isNone then [p.errDesc] else []
  let calls2 := [PlatformCall.setWindowSizeLimits cur.minSize.1 cur.minSize.2,
    PlatformCall.setWindowPos pos.1 pos.2]
  let vid : vid_s :=
    { pos := pos
      fbSize := p.framebufferSize mode2 cur.minSize pos
      size := p.windowSize mode2 cur.minSize pos
      maximised := self.vid.maximised }
  { state :=
      { self with
        initialised := true
        wnd := wnd
        numMon := p.monitors.length
        priMon := 0
        mon := mon
        defRes := defRes
        cur := cur
        scrSize := scrSize
        minSize := minSize
        vid := vid }
    ret := 0
    warnings := warnings
    prints := prints
    calls := calls1 ++ calls2 }

/-- The function `sys_video_c::Apply`; `none` when the call indexes `mon` outside its
sixteen slots. -/
def Apply (vf : VidFlags) (p : Platform) (self : sys_video_c) (set : sys_vidSet_s) :
    Option ApplyResult :=
  match storeMonitors p.monitors 0 self.mon with
  | none => none
  | some mon =>
    match resolveDisplay p.monitors.length mon set.display (PlatformGetCursorPos p) with
    | none => none
    | some (display, warnings) =>
      match monAt mon display with
      | none => none
      | some target => some (applyWindow vf p self set mon display warnings target)

/-! ## Remaining members -/

/-- The callback given to `glfwSetWindowCloseCallback`: the value it passes to
`glfwSetWindowShouldClose`, and the number of calls of `core->CanExit()` it makes.
`sysInitialised` is `sys->initialised`, `canExit` the answer of `core->CanExit()`;
the operator `&&` evaluates its right operand only when the left one is true. -/
def windowCloseCallback (sysInitialised canExit : Bool) : Bool × Nat :=
  if sysInitialised then (canExit, 1) else (false, 0)

/-- The function `IsVisible`; `visibleAttrib` is the answer of
`glfwGetWindowAttrib(wnd, GLFW_VISIBLE)`. -/
def IsVisible (self : sys_video_c) (visibleAttrib : Int) : Bool :=
  if !self.initialised || self.wnd.isNone then false
  else visibleAttrib != 0

/-- The function `IsCursorOverWindow`. -/
def IsCursorOverWindow (self : sys_video_c) (visibleAttrib : Int) : Bool :=
  if self.initialised && self.wnd.isSome && IsVisible self visibleAttrib then
    self.cursorInWindow
  else
    true

/-- Whether a notification is a cursor enter or leave notification. -/
def Notification.isCursorEnter : Notification → Bool
  | .cursorEnter _ => true
  | _ => false

/-! ## Notions used to state the properties -/

/-- The registry after the store loop has run over `monitors` from slot `i` on, in
closed form: slot `j` holds entry `j - i` of the list where there is one and keeps
its old content otherwise. -/
def storedRegistry (monitors : List MonitorSpec) (i : Nat) (mon : Fin 16 → MonitorSpec) :
    Fin 16 → MonitorSpec :=
  fun j => if i ≤ j.val then monitors.getD (j.val - i) (mon j) else mon j

/-- The point `(x, y)` lies in the half-open rectangle
`[left, left + width) × [top, top + height)` of entry `m` of the monitor list. -/
def MonitorContains (monitors : List MonitorSpec) (x y : Int) (m : Nat) : Prop :=
  match monitors[m]? with
  | some spec =>
    spec.left ≤ x ∧ x < spec.left + spec.width ∧ spec.top ≤ y ∧ y < spec.top + spec.height
  | none => False

instance (monitors : List MonitorSpec) (x y : Int) (m : Nat) :
    Decidable (MonitorContains monitors x y m) := by
  unfold MonitorContains; split <;> infer_instance

/-- Right and bottom edge of every monitor of the list are representable as `int`. -/
def EdgesInRange (monitors : List MonitorSpec) : Prop :=
  ∀ spec ∈ monitors, InInt32 (spec.left + spec.width) ∧ InInt32 (spec.top + spec.height)

instance (monitors : List MonitorSpec) : Decidable (EdgesInRange monitors) := by
  unfold EdgesInRange; infer_instance

/-- Both coordinates of a position are representable as `int`. -/
def CursorPos.InIntRange (p : CursorPos) : Prop := InInt32 p.x ∧ InInt32 p.y

instance (p : CursorPos) : Decidable p.InIntRange := by
  unfold CursorPos.InIntRange; infer_instance

/-- The monitor search carried out on the monitor list itself: the entries are
numbered from `m` on. -/
def scanMonitors (x y : Int) : List MonitorSpec → Nat → Int
  | [], _ => 0
  | spec :: rest, m =>
    if cursorInMonitor spec x y then m else scanMonitors x y rest (m + 1)

/-- The display chosen for an "auto" request, as a function of the monitor list and
the global cursor position alone. -/
def autoDisplay (monitors : List MonitorSpec) (cursor : Option (Int × Int)) : Int :=
  match cursor with
  | some (x, y) => scanMonitors x y monitors 0
  | none => 0

/-- The resolution `Apply` works with before the saved geometry is looked at: the
requested one, or the default one when the requested width is 0. -/
def requestedMode (set : sys_vidSet_s) (defRes : Int × Int) : Int × Int :=
  if set.mode.1 = 0 then defRes else set.mode

/-- The size `Apply` asks the windowing layer to give the window: the arguments of
`glfwSetWindowSize` on an initialised object, of `glfwCreateWindow` otherwise; both
come first among the calls. -/
def sizeAsked : List PlatformCall → Option (Int × Int)
  | .setWindowSize w h :: _ => some (w, h)
  | .createWindow w h _ _ _ :: _ => some (w, h)
  | _ => none

/-- The flag word after the debugger adjustment of `Apply`. -/
def debuggerFlags (vf : VidFlags) (p : Platform) (set : sys_vidSet_s) : Nat :=
  if p.debuggerRunning then set.flags &&& bitNot32 vf.VID_TOPMOST else set.flags

/-! ## Concrete data for instantiating the statements -/

/-- The object as its constructor leaves it. -/
def sys_video_c.init : sys_video_c :=
  { initialised := false
    wnd := none
    numMon := 0
    priMon := 0
    mon := fun _ => ⟨0, 0, 0, 0, 0⟩
    defRes := (0, 0)
    cur := ⟨false, 0, 0, (0, 0), (0, 0), ⟨(0, 0), (0, 0), false⟩⟩
    scrSize := (0, 0)
    minSize := (0, 0)
    cursorInWindow := false
    lastCursorPos := none
    lastClick := none
    vid := ⟨(0, 0), (0, 0), (0, 0), false⟩ }

/-- A key-code table with the mouse codes 1 to 5 and the wheel codes 6 and 7. -/
def sampleKeys : KeyCodes := ⟨1, 2, 3, 4, 5, 6, 7⟩

/-- Surroundings in which platform key 65 maps to code 97 without auxiliary
character, platform key 320 maps to code 200 with auxiliary character 48, every other
key is unmapped, and the clock ticks 10000 times a millisecond. -/
def sampleEnv : Env :=
  { keys := sampleKeys
    GlfwKeyToKey := fun key => if key = 65 then 97 else if key = 320 then 200 else 0
    GlfwKeyExtraChar := fun key => if key = 320 then 48 else 0
    ticksPerMs := 10000 }

/-- No key held, no pending click, cursor recorded at (100, 100). -/
def sampleState : SysState :=
  { video := { sys_video_c.init with cursorInWindow := true, lastCursorPos := some ⟨100, 100⟩ }
    heldKeyState := fun _ => false }

/-- As `sampleState`, with a pending click of code 1 at tick 1000 and (100, 100). -/
def pendingState : SysState :=
  { video := { sampleState.video with lastClick := some ⟨1000, ⟨100, 100⟩, 1⟩ }
    heldKeyState := fun _ => false }

/-- Flag constants 1, 2, 4 and 8. -/
def sampleFlags : VidFlags := ⟨1, 2, 4, 8⟩

/-- Two monitors side by side, 1920x1080 at the origin and 1280x1024 right of it; the
global cursor at (2000, 500); window creation succeeds and the windowing layer
answers the size it was asked for. -/
def samplePlatform : Platform :=
  { monitors := [⟨1, 0, 0, 1920, 1080⟩, ⟨2, 1920, 0, 1280, 1024⟩]
    win32 := true
    cursor := (2000, 500)
    debuggerRunning := true
    createWindow := some 1
    errDesc := ""
    framebufferSize := fun mode _ _ => mode
    windowSize := fun mode _ _ => mode }

/-- Settings asking for display `display` with flag word `flags`, resolution 800x600,
saved position (10, 20), saved size 640x480 and saved state `maximised`. -/
def sampleSet (display : Int) (flags : Nat) (maximised : Bool) : sys_vidSet_s :=
  { shown := true
    flags := flags
    display := display
    mode := (800, 600)
    minSize := (0, 0)
    save := ⟨(10, 20), (640, 480), maximised⟩ }

/-- As `samplePlatform`, with window creation failing with the description
"no display". -/
def failingPlatform : Platform :=
  { samplePlatform with createWindow := none, errDesc := "no display" }

/-- As `samplePlatform`, with no monitor reported. -/
def emptyPlatform : Platform :=
  { samplePlatform with monitors := [] }

/-- Seventeen monitors of 800x600, side by side. -/
def monitors17 : List MonitorSpec :=
  (List.range 17).map fun i => ⟨i + 1, 800 * (i : Int), 0, 800, 600⟩

/-- As `samplePlatform`, with the seventeen monitors reported. -/
def crowdedPlatform : Platform :=
  { samplePlatform with monitors := monitors17 }

/-- An object that `Apply` has set up before: initialised, with a window. -/
def sampleVideo : sys_video_c :=
  { sys_video_c.init with initialised := true, wnd := some 1 }

/-- Two monitors, the first one left of the origin, and no monitor reported later:
the platform of a first call, to be followed by a call on `emptyPlatform`. -/
def shiftedPlatform : Platform :=
  { samplePlatform with
    monitors := [⟨1, -1920, 0, 1920, 1080⟩, ⟨2, 0, 0, 1280, 1024⟩] }

/-! ## Auxiliary facts -/

theorem toByte_of_inRange {k : Int} (h : 0 ≤ k ∧ k < 256) : toByte k = k := by
  unfold toByte; omega

theorem sgKeyOf_mem {kc : KeyCodes} {button k : Int} (h : sgKeyOf kc button = some k) :
    k ∈ kc.mouseCodes := by
  unfold sgKeyOf at h
  simp only [KeyCodes.mouseCodes, List.mem_cons, List.mem_singleton]
  split_ifs at h <;> simp_all

theorem sgKeyOf_toByte {kc : KeyCodes} {button k : Int} (hr : kc.InByteRange)
    (h : sgKeyOf kc button = some k) : toByte k = k :=
  toByte_of_inRange (hr k (sgKeyOf_mem h))

theorem toInt_finite_intCast (n : Int) : (Real64.finite (n : ℚ)).toInt = n := by
  simp [Real64.toInt]

/-- A press of a recognised button met with no pending click: ordinary key-down. -/
theorem press_without_pending (env : Env) (s : SysState) (button mods now k : Int)
    (hB : sgKeyOf env.keys button = some k) (hpending : s.video.lastClick = none) :
    (mouseButtonCallback env s button GLFW_PRESS mods now).2 = [⟨k, KE_KEYDOWN⟩] := by
  unfold mouseButtonCallback
  simp only [hB, hpending, clickType]
  cases hp : s.video.lastCursorPos <;> simp

/-- A press of a recognised button while a position is recorded and no click is
pending records the press as the pending click. -/
theorem press_records_pending (env : Env) (s : SysState) (button mods now k : Int)
    (p : CursorPos) (hB : sgKeyOf env.keys button = some k)
    (hpending : s.video.lastClick = none) (hpos : s.video.lastCursorPos = some p) :
    (mouseButtonCallback env s button GLFW_PRESS mods now).1.video.lastClick =
        some ⟨now, p, toByte k⟩ ∧
      (mouseButtonCallback env s button GLFW_PRESS mods now).1.video.lastCursorPos =
        some p := by
  unfold mouseButtonCallback
  simp [hB, hpending, hpos, clickType]

/-- The mouse-button callback on a press of a recognised button while a cursor
position is recorded. -/
theorem press_with_position (env : Env) (s : SysState) (button mods now k : Int)
    (p : CursorPos) (hB : sgKeyOf env.keys button = some k)
    (hpos : s.video.lastCursorPos = some p) :
    (mouseButtonCallback env s button GLFW_PRESS mods now).2 =
        [⟨k, clickType env s.video.lastClick k now p KE_KEYDOWN⟩] ∧
      (mouseButtonCallback env s button GLFW_PRESS mods now).1.video.lastClick =
        (if clickType env s.video.lastClick k now p KE_KEYDOWN = KE_DBLCLK then none
          else some ⟨now, p, toByte k⟩) ∧
      (mouseButtonCallback env s button GLFW_PRESS mods now).1.video.lastCursorPos =
        some p := by
  unfold mouseButtonCallback
  simp [hB, hpos]

theorem wrapInt_of_inRange {v : Int} (h : InInt32 v) : wrapInt v = v := by
  unfold InInt32 at h
  unfold wrapInt
  omega

theorem absInt_wrapInt {d : Int} (h : |d| < 2 ^ 31) : absInt (wrapInt d) = |d| := by
  have h1 : InInt32 d := by
    unfold InInt32
    rcases abs_cases d with ⟨h2, _⟩ | ⟨h2, _⟩ <;> omega
  rw [wrapInt_of_inRange h1]
  unfold absInt
  rw [Int.natCast_natAbs]
  apply wrapInt_of_inRange
  unfold InInt32
  have := abs_nonneg d
  omega

/-- The double-click test succeeds on a pending click of the same button that is
recent and close enough. -/
theorem clickType_dblclk (env : Env) (lc : ClickEvent) (k now : Int) (p : CursorPos)
    (t : keyEvent_s) (hbtn : lc.button = k)
    (hdelay : now - lc.time ≤ 500 * env.ticksPerMs)
    (hx : |lc.pos.x - p.x| ≤ 5) (hy : |lc.pos.y - p.y| ≤ 5) :
    clickType env (some lc) k now p t = KE_DBLCLK := by
  have hx2 : absInt (wrapInt (lc.pos.x - p.x)) ≤ 5 := by
    rw [absInt_wrapInt (lt_of_le_of_lt hx (by norm_num))]; exact hx
  have hy2 : absInt (wrapInt (lc.pos.y - p.y)) ≤ 5 := by
    rw [absInt_wrapInt (lt_of_le_of_lt hy (by norm_num))]; exact hy
  simp only [clickType, hbtn, DOUBLECLICK_DELAY, DOUBLECLICK_RANGE]
  rw [if_pos trivial, if_pos ⟨hdelay, hx2, hy2⟩]

/-- The double-click test leaves the event type alone when the pending click is of
another button, too old, or more than 5 away on an axis whose coordinate difference
is representable as `int`. -/
theorem clickType_keep (env : Env) (lc : ClickEvent) (k now : Int) (p : CursorPos)
    (t : keyEvent_s)
    (h : lc.button ≠ k ∨ now - lc.time > 500 * env.ticksPerMs ∨
      (|lc.pos.x - p.x| > 5 ∧ |lc.pos.x - p.x| < 2 ^ 31) ∨
      (|lc.pos.y - p.y| > 5 ∧ |lc.pos.y - p.y| < 2 ^ 31)) :
    clickType env (some lc) k now p t = t := by
  simp only [clickType, DOUBLECLICK_DELAY, DOUBLECLICK_RANGE]
  split_ifs with h1 h2
  · exfalso
    obtain ⟨ht, hx, hy⟩ := h2
    rcases h with h | h | ⟨h, hr⟩ | ⟨h, hr⟩
    · exact h h1
    · omega
    · rw [absInt_wrapInt hr] at hx
      omega
    · rw [absInt_wrapInt hr] at hy
      omega
  · rfl
  · rfl

theorem clickType_none (env : Env) (k now : Int) (p : CursorPos) (t : keyEvent_s) :
    clickType env none k now p t = t := rfl

/-- A cursor move records the position and leaves the pending click alone. -/
theorem cursorPos_fields (s : SysState) (x y : Int) :
    (cursorPosCallback s (.finite x) (.finite y)).video.lastCursorPos = some ⟨x, y⟩ ∧
      (cursorPosCallback s (.finite x) (.finite y)).video.lastClick = s.video.lastClick := by
  simp [cursorPosCallback, toInt_finite_intCast]

/-- Distinct recognised buttons have distinct codes when the table has no repeats. -/
theorem sgKeyOf_injective {kc : KeyCodes} {b1 b2 k1 k2 : Int} (hd : kc.Distinct)
    (h1 : sgKeyOf kc b1 = some k1) (h2 : sgKeyOf kc b2 = some k2) (hne : b1 ≠ b2) :
    k1 ≠ k2 := by
  unfold KeyCodes.Distinct KeyCodes.mouseCodes at hd
  simp only [List.nodup_cons, List.mem_cons, List.mem_singleton, not_or, List.not_mem_nil,
    not_false_eq_true, List.nodup_nil, and_true] at hd
  unfold sgKeyOf at h1 h2
  intro hk
  subst hk
  split_ifs at h1 h2 <;> simp_all

/-- Only a button press changes the pending click. -/
theorem step_lastClick (env : Env) (s : SysState) (n : Notification)
    (hn : n.isPress = false) : (step env s n).1.video.lastClick = s.video.lastClick := by
  cases n with
  | cursorEnter entered =>
    simp only [step, cursorEnterCallback]
    split_ifs <;> rfl
  | cursorPos x y => rfl
  | char c => rfl
  | key key scancode action mods =>
    simp only [step, keyCallback]
    split_ifs <;> rfl
  | mouseButton button action mods now =>
    simp only [Notification.isPress] at hn
    simp only [step, mouseButtonCallback]
    cases sgKeyOf env.keys button with
    | none => rfl
    | some k => simp [hn]
  | scroll x y => rfl

theorem run_lastClick (env : Env) (mid : List Notification) :
    ∀ s : SysState, (∀ n ∈ mid, n.isPress = false) →
      (run env s mid).1.video.lastClick = s.video.lastClick := by
  induction mid with
  | nil => intro s _; rfl
  | cons n rest ih =>
    intro s h
    simp only [run]
    rw [ih _ (fun m hm => h m (List.mem_cons_of_mem _ hm)),
      step_lastClick env s n (h n (List.mem_cons_self _ _))]

/-- Without a cursor-move notification an absent cursor position stays absent. -/
theorem step_lastCursorPos (env : Env) (s : SysState) (n : Notification)
    (hn : n.isCursorPos = false) (hs : s.video.lastCursorPos = none) :
    (step env s n).1.video.lastCursorPos = none := by
  cases n with
  | cursorEnter entered =>
    simp only [step, cursorEnterCallback]
    split_ifs
    · rfl
    · exact hs
  | cursorPos x y => simp [Notification.isCursorPos] at hn
  | char c => exact hs
  | key key scancode action mods =>
    simp only [step, keyCallback]
    split_ifs <;> exact hs
  | mouseButton button action mods now =>
    simp only [step, mouseButtonCallback]
    cases sgKeyOf env.keys button with
    | none => exact hs
    | some k => simp [hs]
  | scroll x y => exact hs

theorem run_lastCursorPos (env : Env) (mid : List Notification) :
    ∀ s : SysState, (∀ n ∈ mid, n.isCursorPos = false) → s.video.lastCursorPos = none →
      (run env s mid).1.video.lastCursorPos = none := by
  induction mid with
  | nil => intro s _ hs; exact hs
  | cons n rest ih =>
    intro s h hs
    simp only [run]
    exact ih _ (fun m hm => h m (List.mem_cons_of_mem _ hm))
      (step_lastCursorPos env s n (h n (List.mem_cons_self _ _)) hs)

/-- The event of a button notification delivered while no position is recorded. -/
theorem button_without_position (env : Env) (s : SysState) (button action mods now : Int)
    (hs : s.video.lastCursorPos = none) :
    (mouseButtonCallback env s button action mods now).1.video.lastClick =
        s.video.lastClick ∧
      ∀ e ∈ (mouseButtonCallback env s button action mods now).2,
        e.type = (if action = GLFW_PRESS then KE_KEYDOWN else KE_KEYUP) := by
  unfold mouseButtonCallback
  cases sgKeyOf env.keys button with
  | none => simp
  | some k => simp [hs]

/-- The event of a button notification other than a press. -/
theorem button_not_press (env : Env) (s : SysState) (button action mods now : Int)
    (ha : action ≠ GLFW_PRESS) :
    (mouseButtonCallback env s button action mods now).1.video.lastClick =
        s.video.lastClick ∧
      ∀ e ∈ (mouseButtonCallback env s button action mods now).2, e.type = KE_KEYUP := by
  have hb : (action == GLFW_PRESS) = false := by simpa using ha
  unfold mouseButtonCallback
  cases sgKeyOf env.keys button with
  | none => simp
  | some k => simp [hb]

/-! ## Mouse buttons: the double-click rule -/

/-- C1. Double-click law: from a state with no pending click and a recorded cursor
position `p1`, two presses of the same recognised button at tick counts `T1 ≤ T2` no
more than 500 ms apart, the second made with the recorded position `p2` within 5 of
`p1` on each axis, emit exactly key-down followed by double-click.  The first part
delivers a cursor move to `p2` between the presses, the second part delivers the
presses back to back. -/
theorem double_click_law (env : Env) (s : SysState) (button mods1 mods2 T1 T2 k : Int)
    (p1 p2 : CursorPos)
    (hkeys : env.keys.InByteRange)
    (hB : sgKeyOf env.keys button = some k)
    (hpending : s.video.lastClick = none)
    (hpos : s.video.lastCursorPos = some p1)
    (hT : T1 ≤ T2) (hdelay : T2 - T1 ≤ 500 * env.ticksPerMs)
    (hx : |p1.x - p2.x| ≤ 5) (hy : |p1.y - p2.y| ≤ 5) :
    (run env s [.mouseButton button GLFW_PRESS mods1 T1,
        .cursorPos (.finite p2.x) (.finite p2.y),
        .mouseButton button GLFW_PRESS mods2 T2]).2
        = [⟨k, KE_KEYDOWN⟩, ⟨k, KE_DBLCLK⟩] ∧
      (p2 = p1 →
        (run env s [.mouseButton button GLFW_PRESS mods1 T1,
          .mouseButton button GLFW_PRESS mods2 T2]).2
          = [⟨k, KE_KEYDOWN⟩, ⟨k, KE_DBLCLK⟩]) := by
  have hb := sgKeyOf_toByte hkeys hB
  obtain ⟨h1, hc, hp⟩ := press_with_position env s button mods1 T1 k p1 hB hpos
  rw [hpending, clickType_none] at h1 hc
  simp only [reduceCtorEq, if_false] at hc
  simp only [run, step, List.append_nil, List.nil_append]
  generalize mouseButtonCallback env s button GLFW_PRESS mods1 T1 = r1 at h1 hc hp ⊢
  constructor
  · obtain ⟨hq, hq2⟩ := cursorPos_fields r1.1 p2.x p2.y
    generalize cursorPosCallback r1.1 (.finite p2.x) (.finite p2.y) = s2 at hq hq2 ⊢
    obtain ⟨h2, -, -⟩ := press_with_position env s2 button mods2 T2 k _ hB hq
    rw [hq2, hc, clickType_dblclk env ⟨T1, p1, toByte k⟩ k T2 ⟨p2.x, p2.y⟩ _ hb hdelay hx hy]
      at h2
    rw [h1, h2]; rfl
  · intro hpp
    subst hpp
    obtain ⟨h2, -, -⟩ := press_with_position env r1.1 button mods2 T2 k p2 hB hp
    rw [hc, clickType_dblclk env ⟨T1, p2, toByte k⟩ k T2 p2 _ hb hdelay hx hy] at h2
    rw [h1, h2]; rfl

theorem double_click_law_witness :
    (run sampleEnv sampleState [.mouseButton 0 GLFW_PRESS 0 1000,
        .cursorPos (.finite ((103 : Int) : ℚ)) (.finite ((98 : Int) : ℚ)),
        .mouseButton 0 GLFW_PRESS 0 3000000]).2
      = [⟨1, KE_KEYDOWN⟩, ⟨1, KE_DBLCLK⟩] :=
  (double_click_law sampleEnv sampleState 0 0 0 1000 3000000 1 ⟨100, 100⟩ ⟨103, 98⟩
    (by decide) rfl rfl rfl (by decide) (by decide) (by decide) (by decide)).1

/-- C2. No triple-click chaining: when a button notification emits a double-click
event, the pending-click record is absent afterwards, and after any further
notifications other than button presses the next press of any recognised button, at
any time and with any or no recorded position, emits exactly an ordinary key-down. -/
theorem no_triple_click (env : Env) (s : SysState) (button action mods now : Int)
    (hdbl : ∃ e ∈ (mouseButtonCallback env s button action mods now).2,
      e.type = KE_DBLCLK) :
    (mouseButtonCallback env s button action mods now).1.video.lastClick = none ∧
      ∀ (mid : List Notification), (∀ n ∈ mid, n.isPress = false) →
        ∀ (button2 mods2 now2 k2 : Int), sgKeyOf env.keys button2 = some k2 →
          (step env (run env (mouseButtonCallback env s button action mods now).1 mid).1
            (.mouseButton button2 GLFW_PRESS mods2 now2)).2 = [⟨k2, KE_KEYDOWN⟩] := by
  have hnone : (mouseButtonCallback env s button action mods now).1.video.lastClick
      = none := by
    obtain ⟨e, he, ht⟩ := hdbl
    by_cases ha : action = GLFW_PRESS
    · subst ha
      cases hp : s.video.lastCursorPos with
      | none =>
        have h := (button_without_position env s button GLFW_PRESS mods now hp).2 e he
        rw [h] at ht
        simp at ht
      | some p =>
        cases hk : sgKeyOf env.keys button with
        | none => simp [mouseButtonCallback, hk] at he
        | some k =>
          obtain ⟨h1, h2, -⟩ := press_with_position env s button mods now k p hk hp
          rw [h1, List.mem_singleton] at he
          subst he
          simp only at ht
          rw [h2, if_pos ht]
    · have h := (button_not_press env s button action mods now ha).2 e he
      rw [h] at ht
      simp at ht
  refine ⟨hnone, ?_⟩
  intro mid hmid button2 mods2 now2 k2 hB2
  have h := run_lastClick env mid (mouseButtonCallback env s button action mods now).1 hmid
  rw [hnone] at h
  exact press_without_pending env _ button2 mods2 now2 k2 hB2 h

theorem no_triple_click_witness :
    (mouseButtonCallback sampleEnv pendingState 0 GLFW_PRESS 0 2000).1.video.lastClick = none ∧
      (step sampleEnv
        (run sampleEnv (mouseButtonCallback sampleEnv pendingState 0 GLFW_PRESS 0 2000).1
          [.mouseButton 0 GLFW_RELEASE 0 2500]).1
        (.mouseButton 0 GLFW_PRESS 0 3000)).2 = [⟨1, KE_KEYDOWN⟩] :=
  have h := no_triple_click sampleEnv pendingState 0 GLFW_PRESS 0 2000
    ⟨⟨1, KE_DBLCLK⟩, by decide, rfl⟩
  ⟨h.1, h.2 [.mouseButton 0 GLFW_RELEASE 0 2500] (by decide) 0 0 3000 1 rfl⟩

/-- C3. Time negative case: from a state with no pending click and a recorded cursor
position, two presses of the same recognised button at that position whose tick
counts are more than 500 ms apart both emit an ordinary key-down. -/
theorem slow_presses_no_double_click (env : Env) (s : SysState)
    (button mods1 mods2 T1 T2 k : Int) (p : CursorPos)
    (hB : sgKeyOf env.keys button = some k)
    (hpending : s.video.lastClick = none)
    (hpos : s.video.lastCursorPos = some p)
    (hgap : T2 - T1 > 500 * env.ticksPerMs) :
    (run env s [.mouseButton button GLFW_PRESS mods1 T1,
        .mouseButton button GLFW_PRESS mods2 T2]).2
      = [⟨k, KE_KEYDOWN⟩, ⟨k, KE_KEYDOWN⟩] := by
  obtain ⟨h1, hc, hp⟩ := press_with_position env s button mods1 T1 k p hB hpos
  rw [hpending, clickType_none] at h1 hc
  simp only [reduceCtorEq, if_false] at hc
  simp only [run, step, List.append_nil]
  generalize mouseButtonCallback env s button GLFW_PRESS mods1 T1 = r1 at h1 hc hp ⊢
  obtain ⟨h2, -, -⟩ := press_with_position env r1.1 button mods2 T2 k p hB hp
  rw [hc, clickType_keep env ⟨T1, p, toByte k⟩ k T2 p _ (Or.inr (Or.inl hgap))] at h2
  rw [h1, h2]; rfl

theorem slow_presses_no_double_click_witness :
    (run sampleEnv sampleState [.mouseButton 0 GLFW_PRESS 0 0,
        .mouseButton 0 GLFW_PRESS 0 6000000]).2
      = [⟨1, KE_KEYDOWN⟩, ⟨1, KE_KEYDOWN⟩] :=
  slow_presses_no_double_click sampleEnv sampleState 0 0 0 0 6000000 1 ⟨100, 100⟩
    rfl rfl rfl (by decide)

/-- C4. Cross-button negative case: from a state with no pending click and a recorded
cursor position, a press of one recognised button followed, at any tick counts, by a
press of a different recognised button at the same position emits the two ordinary
key-downs, and the pending click afterwards is the second press. -/
theorem cross_button_no_double_click (env : Env) (s : SysState)
    (button1 button2 mods1 mods2 T1 T2 k1 k2 : Int) (p : CursorPos)
    (hkeys : env.keys.InByteRange) (hdist : env.keys.Distinct)
    (hB1 : sgKeyOf env.keys button1 = some k1)
    (hB2 : sgKeyOf env.keys button2 = some k2)
    (hne : button1 ≠ button2)
    (hpending : s.video.lastClick = none)
    (hpos : s.video.lastCursorPos = some p) :
    (run env s [.mouseButton button1 GLFW_PRESS mods1 T1,
        .mouseButton button2 GLFW_PRESS mods2 T2]).2
        = [⟨k1, KE_KEYDOWN⟩, ⟨k2, KE_KEYDOWN⟩] ∧
      (run env s [.mouseButton button1 GLFW_PRESS mods1 T1,
        .mouseButton button2 GLFW_PRESS mods2 T2]).1.video.lastClick
        = some ⟨T2, p, k2⟩ := by
  have hb1 := sgKeyOf_toByte hkeys hB1
  have hb2 := sgKeyOf_toByte hkeys hB2
  have hk := sgKeyOf_injective hdist hB1 hB2 hne
  obtain ⟨h1, hc, hp⟩ := press_with_position env s button1 mods1 T1 k1 p hB1 hpos
  rw [hpending, clickType_none] at h1 hc
  simp only [reduceCtorEq, if_false] at hc
  simp only [run, step, List.append_nil]
  generalize mouseButtonCallback env s button1 GLFW_PRESS mods1 T1 = r1 at h1 hc hp ⊢
  obtain ⟨h2, hc2, -⟩ := press_with_position env r1.1 button2 mods2 T2 k2 p hB2 hp
  have hkeep : clickType env (some ⟨T1, p, toByte k1⟩) k2 T2 p KE_KEYDOWN = KE_KEYDOWN :=
    clickType_keep env ⟨T1, p, toByte k1⟩ k2 T2 p _ (Or.inl (by rw [hb1]; exact hk))
  rw [hc, hkeep] at h2 hc2
  simp only [reduceCtorEq, if_false, hb2] at hc2
  refine ⟨?_, hc2⟩
  rw [h1, h2]; rfl

theorem cross_button_no_double_click_witness :
    (run sampleEnv sampleState [.mouseButton 0 GLFW_PRESS 0 0,
        .mouseButton 1 GLFW_PRESS 0 500000]).2
        = [⟨1, KE_KEYDOWN⟩, ⟨3, KE_KEYDOWN⟩] ∧
      (run sampleEnv sampleState [.mouseButton 0 GLFW_PRESS 0 0,
        .mouseButton 1 GLFW_PRESS 0 500000]).1.video.lastClick
        = some ⟨500000, ⟨100, 100⟩, 3⟩ :=
  cross_button_no_double_click sampleEnv sampleState 0 1 0 0 0 500000 1 3 ⟨100, 100⟩
    (by decide) (by decide) rfl rfl (by decide) rfl rfl

/-- C5. Leave-then-re-enter: from every state, after a cursor-leave notification and
any further notifications other than cursor moves, a press of a recognised button
emits exactly an ordinary key-down and leaves the pending click as it was, and no
button notification emits a double-click event. -/
theorem press_after_leave (env : Env) (s : SysState) (mid : List Notification)
    (hmid : ∀ n ∈ mid, n.isCursorPos = false) (button action mods now : Int) :
    (∀ k, sgKeyOf env.keys button = some k →
        (step env (run env s (.cursorEnter 0 :: mid)).1
          (.mouseButton button GLFW_PRESS mods now)).2 = [⟨k, KE_KEYDOWN⟩] ∧
        (step env (run env s (.cursorEnter 0 :: mid)).1
          (.mouseButton button GLFW_PRESS mods now)).1.video.lastClick
          = (run env s (.cursorEnter 0 :: mid)).1.video.lastClick) ∧
      ∀ e ∈ (step env (run env s (.cursorEnter 0 :: mid)).1
          (.mouseButton button action mods now)).2, e.type ≠ KE_DBLCLK := by
  have hleave : (step env s (.cursorEnter 0)).1.video.lastCursorPos = none := by
    simp [step, cursorEnterCallback]
  have hs : (run env s (.cursorEnter 0 :: mid)).1.video.lastCursorPos = none := by
    simp only [run]
    exact run_lastCursorPos env mid _ hmid hleave
  generalize run env s (.cursorEnter 0 :: mid) = r at hs ⊢
  constructor
  · intro k hB
    obtain ⟨hc, he⟩ := button_without_position env r.1 button GLFW_PRESS mods now hs
    refine ⟨?_, hc⟩
    simp only [step]
    unfold mouseButtonCallback
    simp [hB, hs]
  · intro e he
    obtain ⟨-, h⟩ := button_without_position env r.1 button action mods now hs
    rw [h e he]
    split_ifs <;> simp

theorem press_after_leave_witness :
    (step sampleEnv (run sampleEnv pendingState [.cursorEnter 0, .cursorEnter 1]).1
      (.mouseButton 0 GLFW_PRESS 0 2000)).2 = [⟨1, KE_KEYDOWN⟩] :=
  ((press_after_leave sampleEnv pendingState [.cursorEnter 1] (by decide) 0 GLFW_PRESS 0
    2000).1 1 rfl).1

/-! ## Scroll and key translation -/

/-- C8. Scroll translation: a scroll notification with vertical offset above zero
emits exactly key-down then key-up of the wheel-up code, one with vertical offset
below zero emits exactly key-down then key-up of the wheel-down code, and one with
vertical offset zero emits nothing; the horizontal offset plays no part and the state
is left as it was. -/
theorem scroll_translation (env : Env) (s : SysState) (xoffset yoffset : Real64) :
    (step env s (.scroll xoffset yoffset)).1 = s ∧
    (yoffset.gtZero = true →
      (step env s (.scroll xoffset yoffset)).2 =
        [⟨env.keys.KEY_MWHEELUP, KE_KEYDOWN⟩, ⟨env.keys.KEY_MWHEELUP, KE_KEYUP⟩]) ∧
    (yoffset.ltZero = true →
      (step env s (.scroll xoffset yoffset)).2 =
        [⟨env.keys.KEY_MWHEELDOWN, KE_KEYDOWN⟩, ⟨env.keys.KEY_MWHEELDOWN, KE_KEYUP⟩]) ∧
    (yoffset = .finite 0 → (step env s (.scroll xoffset yoffset)).2 = []) := by
  refine ⟨rfl, ?_, ?_, ?_⟩
  · intro h
    simp [step, scrollCallback, h]
  · intro h
    have hg : yoffset.gtZero = false := by
      cases yoffset with
      | finite q =>
        simp only [Real64.ltZero, decide_eq_true_eq] at h
        simp only [Real64.gtZero, decide_eq_false_iff_not, not_lt]
        exact le_of_lt h
      | posInf => simp [Real64.ltZero] at h
      | negInf => rfl
      | nan => rfl
    simp [step, scrollCallback, h, hg]
  · intro h
    subst h
    simp [step, scrollCallback, Real64.gtZero, Real64.ltZero]

theorem scroll_translation_witness :
    (step sampleEnv sampleState (.scroll (.finite 0) (.finite (-1)))).2
      = [⟨7, KE_KEYDOWN⟩, ⟨7, KE_KEYUP⟩] :=
  (scroll_translation sampleEnv sampleState (.finite 0) (.finite (-1))).2.2.1 (by decide)

/-- C10. Key translation: with `k` the byte the callback obtains from the key
mapping, a raw key notification emits nothing and leaves the state as it was when
`k = 0` (in particular when the mapping returns 0); when `k ≠ 0` only the held-key
entry of `k` changes, it becomes true on press or repeat and false otherwise, and
the events are key-down of `k` followed by the character event of the auxiliary
character `ch` on a press or repeat of a key that has one, key-down of `k` alone on
a press or repeat of a key without one, and key-up of `k` alone on a release. -/
theorem key_translation (env : Env) (s : SysState) (key scancode action mods : Int) :
    (env.GlfwKeyToKey key = 0 → keyCallback env s key scancode action mods = (s, [])) ∧
    (toByte (env.GlfwKeyToKey key) = 0 →
      keyCallback env s key scancode action mods = (s, [])) ∧
    (∀ k, toByte (env.GlfwKeyToKey key) = k → k ≠ 0 →
      (keyCallback env s key scancode action mods).1.video = s.video ∧
      (∀ j, j ≠ k →
        (keyCallback env s key scancode action mods).1.heldKeyState j = s.heldKeyState j) ∧
      (action = GLFW_PRESS ∨ action = GLFW_REPEAT →
        (keyCallback env s key scancode action mods).1.heldKeyState k = true ∧
        (∀ ch, toChar (env.GlfwKeyExtraChar key) = ch → ch ≠ 0 →
          (keyCallback env s key scancode action mods).2 =
            [⟨k, KE_KEYDOWN⟩, ⟨ch, KE_CHAR⟩]) ∧
        (toChar (env.GlfwKeyExtraChar key) = 0 →
          (keyCallback env s key scancode action mods).2 = [⟨k, KE_KEYDOWN⟩])) ∧
      (¬(action = GLFW_PRESS ∨ action = GLFW_REPEAT) →
        (keyCallback env s key scancode action mods).1.heldKeyState k = false ∧
        (keyCallback env s key scancode action mods).2 = [⟨k, KE_KEYUP⟩])) := by
  refine ⟨?_, ?_, ?_⟩
  · intro h
    simp [keyCallback, h, toByte]
  · intro h
    simp [keyCallback, h]
  · intro k hk hk0
    subst hk
    have hdown : ∀ b : Bool, (action == GLFW_PRESS || action == GLFW_REPEAT) = b →
        (keyCallback env s key scancode action mods).1.video = s.video ∧
        (∀ j, j ≠ toByte (env.GlfwKeyToKey key) →
          (keyCallback env s key scancode action mods).1.heldKeyState j
            = s.heldKeyState j) ∧
        (keyCallback env s key scancode action mods).1.heldKeyState
          (toByte (env.GlfwKeyToKey key)) = b ∧
        (keyCallback env s key scancode action mods).2 =
          (if b && toChar (env.GlfwKeyExtraChar key) != 0 then
            [⟨toByte (env.GlfwKeyToKey key), if b then KE_KEYDOWN else KE_KEYUP⟩,
              ⟨toChar (env.GlfwKeyExtraChar key), KE_CHAR⟩]
          else [⟨toByte (env.GlfwKeyToKey key), if b then KE_KEYDOWN else KE_KEYUP⟩]) := by
      intro b hb
      unfold keyCallback
      simp only [hk0, ne_eq, not_false_eq_true, if_true, hb]
      refine ⟨?_, ?_, ?_, ?_⟩
      · split_ifs <;> rfl
      · intro j hj
        split_ifs <;> simp [Function.update, hj]
      · split_ifs <;> simp [Function.update]
      · split_ifs <;> rfl
    by_cases ha : action = GLFW_PRESS ∨ action = GLFW_REPEAT
    · have hb : (action == GLFW_PRESS || action == GLFW_REPEAT) = true := by
        simpa using ha
      obtain ⟨h1, h2, h3, h4⟩ := hdown true hb
      refine ⟨h1, h2, fun _ => ⟨h3, ?_, ?_⟩, fun hna => absurd ha hna⟩
      · intro ch hch hne
        rw [h4, hch]
        simp [hne]
      · intro hch
        rw [h4, hch]
        simp
    · have hb : (action == GLFW_PRESS || action == GLFW_REPEAT) = false := by
        simpa using ha
      obtain ⟨h1, h2, h3, h4⟩ := hdown false hb
      refine ⟨h1, h2, fun h => absurd h ha, fun _ => ⟨h3, ?_⟩⟩
      rw [h4]
      simp

theorem key_translation_witness :
    (keyCallback sampleEnv sampleState 320 0 GLFW_PRESS 0).2
      = [⟨200, KE_KEYDOWN⟩, ⟨48, KE_CHAR⟩] :=
  (((key_translation sampleEnv sampleState 320 0 GLFW_PRESS 0).2.2 200 (by decide)
    (by decide)).2.2.1 (Or.inl rfl)).2.1 48 (by decide) (by decide)

/-! ## Monitor registry -/

/-- The store loop succeeds when the list fits the remaining slots, and its result
is the closed form. -/
theorem storeMonitors_eq (monitors : List MonitorSpec) :
    ∀ (i : Nat) (mon : Fin 16 → MonitorSpec), i + monitors.length ≤ 16 →
      storeMonitors monitors i mon = some (storedRegistry monitors i mon) := by
  induction monitors with
  | nil =>
    intro i mon _
    simp only [storeMonitors]
    congr 1
    funext j
    simp only [storedRegistry, List.getD_nil, ite_self]
  | cons m rest ih =>
    intro i mon h
    simp only [List.length_cons] at h
    have hi : i < 16 := by omega
    simp only [storeMonitors, hi, dite_true]
    rw [ih (i + 1) _ (by omega)]
    congr 1
    funext j
    simp only [storedRegistry]
    by_cases h1 : i + 1 ≤ j.val
    · have h2 : i ≤ j.val := by omega
      have h3 : j ≠ ⟨i, hi⟩ := by
        intro hj
        rw [hj] at h1
        simp at h1
      have h4 : j.val - i = (j.val - (i + 1)) + 1 := by omega
      simp only [h1, h2, if_true, Function.update_noteq h3]
      rw [h4, List.getD_cons_succ]
    · by_cases h2 : i ≤ j.val
      · have h3 : j = ⟨i, hi⟩ := by
          apply Fin.ext
          simp only
          omega
        subst h3
        simp
      · have h3 : j ≠ ⟨i, hi⟩ := by
          intro hj
          rw [hj] at h2
          simp at h2
        simp only [h1, h2, if_false, Function.update_noteq h3]

/-- The store loop fails when the list does not fit the remaining slots. -/
theorem storeMonitors_overflow (monitors : List MonitorSpec) :
    ∀ (i : Nat) (mon : Fin 16 → MonitorSpec), i ≤ 16 → 16 < i + monitors.length →
      storeMonitors monitors i mon = none := by
  induction monitors with
  | nil =>
    intro i mon hi h
    simp only [List.length_nil, Nat.add_zero] at h
    omega
  | cons m rest ih =>
    intro i mon hi h
    simp only [List.length_cons] at h
    simp only [storeMonitors]
    split_ifs with hlt
    · exact ih (i + 1) _ (by omega) (by omega)
    · rfl

/-- After the store loop, slot `d` below the list length holds entry `d`. -/
theorem monAt_storedRegistry (monitors : List MonitorSpec) (mon : Fin 16 → MonitorSpec)
    (d : Nat) (spec : MonitorSpec) (hcap : monitors.length ≤ 16)
    (hd : monitors[d]? = some spec) :
    monAt (storedRegistry monitors 0 mon) (d : Int) = some spec := by
  obtain ⟨hlt, hget⟩ := List.getElem?_eq_some.mp hd
  have h16 : (0 : Int) ≤ (d : Int) ∧ (d : Int) < 16 := by omega
  simp only [monAt, h16, and_self, dite_true, storedRegistry, Nat.zero_le, if_true,
    Int.toNat_ofNat, Nat.sub_zero]
  rw [List.getD_eq_getElem _ _ hlt, hget]

/-- Slot 0 can always be read. -/
theorem monAt_zero (mon : Fin 16 → MonitorSpec) : monAt mon 0 = some (mon 0) := by
  simp [monAt]

theorem findCursorMonitor_succ (mon : Fin 16 → MonitorSpec) (x y : Int) (r m : Nat) :
    findCursorMonitor mon x y (r + 1) m =
      match monAt mon m with
      | none => none
      | some spec =>
        if cursorInMonitor spec x y then some (m : Int)
        else findCursorMonitor mon x y r (m + 1) := by
  rfl

/-- The search loop over the refreshed registry agrees with the search over the
monitor list. -/
theorem findCursorMonitor_eq (monitors : List MonitorSpec) (mon : Fin 16 → MonitorSpec)
    (x y : Int) (hcap : monitors.length ≤ 16) :
    ∀ (remaining m : Nat), m + remaining = monitors.length →
      findCursorMonitor (storedRegistry monitors 0 mon) x y remaining m =
        some (scanMonitors x y (monitors.drop m) m) := by
  intro remaining
  induction remaining with
  | zero =>
    intro m hm
    have hnil : monitors.drop m = [] := List.drop_eq_nil_of_le (by omega)
    rw [hnil]
    rfl
  | succ r ih =>
    intro m hm
    have hlt : m < monitors.length := by omega
    have hd : monitors.drop m = monitors[m] :: monitors.drop (m + 1) :=
      List.drop_eq_getElem_cons hlt
    have hat := monAt_storedRegistry monitors mon m monitors[m] hcap
      (List.getElem?_eq_getElem hlt)
    rw [hd, findCursorMonitor_succ, scanMonitors, hat]
    simp only
    split_ifs
    · rfl
    · exact ih (m + 1) (by omega)

theorem cursorInMonitor_iff (spec : MonitorSpec) (x y : Int)
    (hr : InInt32 (spec.left + spec.width)) (hb : InInt32 (spec.top + spec.height)) :
    cursorInMonitor spec x y = true ↔
      spec.left ≤ x ∧ x < spec.left + spec.width ∧ spec.top ≤ y ∧ y < spec.top + spec.height := by
  simp only [cursorInMonitor, ge_iff_le, decide_eq_true_eq, wrapInt_of_inRange hr,
    wrapInt_of_inRange hb]
  tauto

/-- The list search returns the least index whose monitor contains the point, and 0
when there is none. -/
theorem scanMonitors_spec (x y : Int) (rest : List MonitorSpec) :
    ∀ (m : Nat),
      (∀ (j : Nat), (∃ spec, rest[j]? = some spec ∧ cursorInMonitor spec x y = true) →
        (∀ (i : Nat), i < j → ∀ spec, rest[i]? = some spec →
          cursorInMonitor spec x y = false) →
        scanMonitors x y rest m = ((m + j : Nat) : Int)) ∧
      ((∀ (j : Nat) (spec : MonitorSpec), rest[j]? = some spec →
          cursorInMonitor spec x y = false) →
        scanMonitors x y rest m = 0) := by
  induction rest with
  | nil =>
    intro m
    refine ⟨?_, fun _ => rfl⟩
    rintro j ⟨spec, h, -⟩ -
    simp at h
  | cons a rest ih =>
    intro m
    constructor
    · rintro j ⟨spec, hj, hin⟩ hmin
      cases j with
      | zero =>
        simp only [List.getElem?_cons_zero, Option.some.injEq] at hj
        subst hj
        simp [scanMonitors, hin]
      | succ j =>
        have ha : cursorInMonitor a x y = false := hmin 0 (Nat.succ_pos _) a (by simp)
        simp only [List.getElem?_cons_succ] at hj
        simp only [scanMonitors, ha, Bool.false_eq_true, if_false]
        rw [(ih (m + 1)).1 j ⟨spec, hj, hin⟩
          (fun i hi sp hsp => hmin (i + 1) (Nat.succ_lt_succ hi) sp (by simpa using hsp))]
        congr 1
        omega
    · intro hnone
      have ha : cursorInMonitor a x y = false := hnone 0 a (by simp)
      simp only [scanMonitors, ha, Bool.false_eq_true, if_false]
      exact (ih (m + 1)).2 (fun j sp hsp => hnone (j + 1) sp (by simpa using hsp))

theorem monitorContains_iff (monitors : List MonitorSpec) (x y : Int) (m : Nat)
    (hedges : EdgesInRange monitors) :
    MonitorContains monitors x y m ↔
      ∃ spec, monitors[m]? = some spec ∧ cursorInMonitor spec x y = true := by
  unfold MonitorContains
  cases h : monitors[m]? with
  | none => simp
  | some spec =>
    obtain ⟨hlt, hget⟩ := List.getElem?_eq_some.mp h
    have hmem : spec ∈ monitors := hget ▸ List.getElem_mem hlt
    obtain ⟨hr, hb⟩ := hedges spec hmem
    simp [cursorInMonitor_iff spec x y hr hb]

/-- With at most sixteen monitors `Apply` returns, and its result is built from the
closed-form registry. -/
theorem Apply_eq (vf : VidFlags) (p : Platform) (self : sys_video_c) (set : sys_vidSet_s)
    (hcap : p.monitors.length ≤ 16) (display : Int) (warnings : List (Int × Int))
    (target : MonitorSpec)
    (hres : resolveDisplay p.monitors.length (storedRegistry p.monitors 0 self.mon)
      set.display (PlatformGetCursorPos p) = some (display, warnings))
    (htarget : monAt (storedRegistry p.monitors 0 self.mon) display = some target) :
    Apply vf p self set = some (applyWindow vf p self set
      (storedRegistry p.monitors 0 self.mon) display warnings target) := by
  unfold Apply
  rw [storeMonitors_eq p.monitors 0 self.mon (by omega)]
  simp only [hres, htarget]

/-- The slot read for the resolved display exists whenever the display lies below
the monitor count or is 0. -/
theorem monAt_resolved (monitors : List MonitorSpec) (mon : Fin 16 → MonitorSpec)
    (d : Int) (hcap : monitors.length ≤ 16)
    (hd : d = 0 ∨ (0 ≤ d ∧ d < monitors.length)) :
    ∃ target, monAt (storedRegistry monitors 0 mon) d = some target := by
  have h16 : 0 ≤ d ∧ d < 16 := by omega
  unfold monAt
  rw [dif_pos h16]
  exact ⟨_, rfl⟩

theorem scanMonitors_range (x y : Int) (rest : List MonitorSpec) :
    ∀ (m : Nat), scanMonitors x y rest m = 0 ∨
      ((m : Int) ≤ scanMonitors x y rest m ∧
        scanMonitors x y rest m < ((m + rest.length : Nat) : Int)) := by
  induction rest with
  | nil => intro m; exact Or.inl rfl
  | cons a rest ih =>
    intro m
    simp only [scanMonitors, List.length_cons]
    split_ifs
    · right
      constructor <;> omega
    · rcases ih (m + 1) with h | ⟨h1, h2⟩
      · exact Or.inl h
      · right
        constructor <;> omega

theorem autoDisplay_range (monitors : List MonitorSpec) (cursor : Option (Int × Int)) :
    autoDisplay monitors cursor = 0 ∨
      (0 ≤ autoDisplay monitors cursor ∧ autoDisplay monitors cursor < monitors.length) := by
  unfold autoDisplay
  cases cursor with
  | none => exact Or.inl rfl
  | some c =>
    obtain ⟨x, y⟩ := c
    rcases scanMonitors_range x y monitors 0 with h | ⟨h1, h2⟩
    · exact Or.inl h
    · right
      simp only at h1 h2 ⊢
      constructor <;> omega

/-- The resolution block on an "auto" request over the refreshed registry. -/
theorem resolveDisplay_auto (monitors : List MonitorSpec) (mon : Fin 16 → MonitorSpec)
    (d : Int) (cursor : Option (Int × Int)) (hcap : monitors.length ≤ 16) (hauto : d < 0) :
    resolveDisplay monitors.length (storedRegistry monitors 0 mon) d cursor
      = some (autoDisplay monitors cursor, []) := by
  have h1 : ¬ d ≥ (monitors.length : Int) := by omega
  unfold resolveDisplay autoDisplay
  rw [if_neg h1, if_pos hauto]
  cases cursor with
  | none => rfl
  | some c =>
    obtain ⟨x, y⟩ := c
    simp only [Int.toNat_ofNat]
    rw [findCursorMonitor_eq monitors mon x y hcap monitors.length 0 (by omega)]
    rfl

/-- `Apply` on an "auto" request with at most sixteen monitors. -/
theorem Apply_auto (vf : VidFlags) (p : Platform) (self : sys_video_c) (set : sys_vidSet_s)
    (hcap : p.monitors.length ≤ 16) (hauto : set.display < 0) :
    ∃ target, Apply vf p self set = some (applyWindow vf p self set
      (storedRegistry p.monitors 0 self.mon)
      (autoDisplay p.monitors (PlatformGetCursorPos p)) [] target) := by
  obtain ⟨target, ht⟩ := monAt_resolved p.monitors self.mon _ hcap
    (autoDisplay_range p.monitors (PlatformGetCursorPos p))
  exact ⟨target, Apply_eq vf p self set hcap _ _ target
    (resolveDisplay_auto p.monitors self.mon set.display _ hcap hauto) ht⟩

/-! ## Flag word -/

theorem land_bitNot32_land (f t v : Nat) (hdisj : t &&& v = 0) (hv : v < 2 ^ 32) :
    (f &&& bitNot32 t) &&& v = f &&& v := by
  apply Nat.eq_of_testBit_eq
  intro i
  have h1 : (t &&& v).testBit i = false := by rw [hdisj]; exact Nat.zero_testBit i
  rw [Nat.testBit_and] at h1
  simp only [Nat.testBit_and, bitNot32, Nat.testBit_xor, Nat.testBit_two_pow_sub_one,
    Nat.testBit_mod_two_pow]
  by_cases hi : i < 32
  · cases hvb : v.testBit i
    · simp
    · rw [hvb] at h1
      simp only [Bool.and_true] at h1
      simp [hi, h1]
  · have hvb : v.testBit i = false :=
      Nat.testBit_lt_two_pow (lt_of_lt_of_le hv (Nat.pow_le_pow_right (by decide) (by omega)))
    simp [hvb]

theorem lor_land_self (f m : Nat) : (f ||| m) &&& m = m := by
  apply Nat.eq_of_testBit_eq
  intro i
  simp only [Nat.testBit_and, Nat.testBit_or]
  cases f.testBit i <;> cases m.testBit i <;> rfl

theorem flagSet_clear_other (f t v : Nat) (hdisj : t &&& v = 0) (hv : v < 2 ^ 32) :
    flagSet (f &&& bitNot32 t) v = flagSet f v := by
  unfold flagSet
  rw [land_bitNot32_land f t v hdisj hv]

/-- The facts about the flag constants used below. -/
theorem VidFlags.WellFormed.facts {vf : VidFlags} (h : vf.WellFormed) :
    0 < vf.VID_MAXIMIZE ∧ vf.VID_MAXIMIZE < 2 ^ 32 ∧ vf.VID_USESAVED < 2 ^ 32 ∧
      vf.VID_TOPMOST &&& vf.VID_MAXIMIZE = 0 ∧ vf.VID_TOPMOST &&& vf.VID_USESAVED = 0 := by
  obtain ⟨h1, h2⟩ := h
  simp only [VidFlags.masks, List.mem_cons, List.mem_singleton, forall_eq_or_imp, forall_eq,
    List.pairwise_cons, List.not_mem_nil, false_implies, implies_true, List.Pairwise.nil,
    and_true] at h1 h2
  obtain ⟨-, -, ⟨hm0, hm⟩, -, hu⟩ := h1
  obtain ⟨⟨-, htm, htu⟩, -, -⟩ := h2
  exact ⟨hm0, hm, hu, htm, htu⟩

/-! ## `Apply`: display resolution and saved geometry -/

/-- C6. Explicit display index in `Apply`.  The resolution block, run with the
monitor count `n` of any monitor list, keeps a requested index `d` with `0 ≤ d < n`
and issues no warning, and turns an index `d ≥ n` into display 0 with exactly one
warning, naming `d` and `n - 1`.  For a monitor list that fits the sixteen slots of
the registry `Apply` returns, and the resolved display and the warnings of the call
are these. -/
theorem explicit_display_resolution (vf : VidFlags) (p : Platform) (self : sys_video_c)
    (set : sys_vidSet_s) :
    (∀ (mon : Fin 16 → MonitorSpec) (cursor : Option (Int × Int)),
      (0 ≤ set.display → set.display < p.monitors.length →
        resolveDisplay p.monitors.length mon set.display cursor = some (set.display, [])) ∧
      (set.display ≥ p.monitors.length →
        resolveDisplay p.monitors.length mon set.display cursor
          = some (0, [(set.display, (p.monitors.length : Int) - 1)]))) ∧
    (p.monitors.length ≤ 16 →
      (0 ≤ set.display → set.display < p.monitors.length →
        ∃ r, Apply vf p self set = some r ∧ r.state.cur.display = set.display ∧
          r.warnings = []) ∧
      (set.display ≥ p.monitors.length →
        ∃ r, Apply vf p self set = some r ∧ r.state.cur.display = 0 ∧
          r.warnings = [(set.display, (p.monitors.length : Int) - 1)])) := by
  have hkeep : ∀ (mon : Fin 16 → MonitorSpec) (cursor : Option (Int × Int)),
      0 ≤ set.display → set.display < p.monitors.length →
        resolveDisplay p.monitors.length mon set.display cursor
          = some (set.display, []) := by
    intro mon cursor h0 hn
    unfold resolveDisplay
    rw [if_neg (by omega), if_neg (by omega)]
  have hfall : ∀ (mon : Fin 16 → MonitorSpec) (cursor : Option (Int × Int)),
      set.display ≥ p.monitors.length →
        resolveDisplay p.monitors.length mon set.display cursor
          = some (0, [(set.display, (p.monitors.length : Int) - 1)]) := by
    intro mon cursor hn
    unfold resolveDisplay
    rw [if_pos hn]
  refine ⟨fun mon cursor => ⟨hkeep mon cursor, hfall mon cursor⟩, ?_⟩
  intro hcap
  constructor
  · intro h0 hn
    obtain ⟨target, ht⟩ := monAt_resolved p.monitors self.mon set.display hcap
      (Or.inr ⟨h0, hn⟩)
    exact ⟨_, Apply_eq vf p self set hcap _ _ target (hkeep _ _ h0 hn) ht, rfl, rfl⟩
  · intro hn
    obtain ⟨target, ht⟩ := monAt_resolved p.monitors self.mon 0 hcap (Or.inl rfl)
    exact ⟨_, Apply_eq vf p self set hcap _ _ target (hfall _ _ hn) ht, rfl, rfl⟩

theorem explicit_display_resolution_witness :
    (∃ r, Apply sampleFlags samplePlatform sys_video_c.init (sampleSet 1 0 false) = some r ∧
      r.state.cur.display = 1 ∧ r.warnings = []) ∧
    (∃ r, Apply sampleFlags samplePlatform sys_video_c.init (sampleSet 5 0 false) = some r ∧
      r.state.cur.display = 0 ∧ r.warnings = [(5, 1)]) :=
  ⟨((explicit_display_resolution sampleFlags samplePlatform sys_video_c.init
      (sampleSet 1 0 false)).2 (by decide)).1 (by decide) (by decide),
    ((explicit_display_resolution sampleFlags samplePlatform sys_video_c.init
      (sampleSet 5 0 false)).2 (by decide)).2 (by decide)⟩

/-- C7. Automatic display in `Apply`, for a monitor list that fits the sixteen slots
of the registry, whose right and bottom edges `left + width` and `top + height` are
representable as `int`, and a requested index below 0: `Apply` returns without a
warning and the resolved display is `autoDisplay` of the monitor list and the global
cursor position, whatever the object and the other settings are.  It is 0 when no
cursor position is available; when the position is `(x, y)` it is the least index
whose half-open rectangle contains `(x, y)`, and 0 when no rectangle does. -/
theorem auto_display_resolution (vf : VidFlags) (p : Platform) (self : sys_video_c)
    (set : sys_vidSet_s) (hcap : p.monitors.length ≤ 16) (hedges : EdgesInRange p.monitors)
    (hauto : set.display < 0) :
    ∃ r, Apply vf p self set = some r ∧ r.warnings = [] ∧
      r.state.cur.display = autoDisplay p.monitors (PlatformGetCursorPos p) ∧
      (PlatformGetCursorPos p = none → r.state.cur.display = 0) ∧
      (∀ x y, PlatformGetCursorPos p = some (x, y) →
        (∀ m : Nat, MonitorContains p.monitors x y m →
          (∀ j : Nat, j < m → ¬ MonitorContains p.monitors x y j) →
          r.state.cur.display = m) ∧
        ((∀ m : Nat, ¬ MonitorContains p.monitors x y m) → r.state.cur.display = 0)) := by
  obtain ⟨target, hA⟩ := Apply_auto vf p self set hcap hauto
  refine ⟨_, hA, rfl, rfl, ?_, ?_⟩
  · intro hnone
    show autoDisplay p.monitors (PlatformGetCursorPos p) = 0
    rw [hnone]
    rfl
  · intro x y hsome
    show (∀ m : Nat, MonitorContains p.monitors x y m →
          (∀ j : Nat, j < m → ¬ MonitorContains p.monitors x y j) →
          autoDisplay p.monitors (PlatformGetCursorPos p) = m) ∧
        ((∀ m : Nat, ¬ MonitorContains p.monitors x y m) →
          autoDisplay p.monitors (PlatformGetCursorPos p) = 0)
    rw [hsome]
    simp only [autoDisplay]
    obtain ⟨hfirst, hnone⟩ := scanMonitors_spec x y p.monitors 0
    constructor
    · intro m hm hmin
      rw [hfirst m ((monitorContains_iff _ _ _ _ hedges).mp hm)]
      · simp
      · intro i hi spec hspec
        by_contra hc
        exact hmin i hi ((monitorContains_iff _ _ _ _ hedges).mpr
          ⟨spec, hspec, by simpa using hc⟩)
    · intro hno
      apply hnone
      intro j spec hspec
      by_contra hc
      exact hno j ((monitorContains_iff _ _ _ _ hedges).mpr
        ⟨spec, hspec, by simpa using hc⟩)

theorem auto_display_resolution_witness :
    ∃ r, Apply sampleFlags samplePlatform sys_video_c.init (sampleSet (-1) 0 false) = some r ∧
      r.state.cur.display = 1 := by
  obtain ⟨r, h1, -, -, -, h2⟩ := auto_display_resolution sampleFlags samplePlatform
    sys_video_c.init (sampleSet (-1) 0 false) (by decide) (by decide) (by decide)
  exact ⟨r, h1, (h2 2000 500 rfl).1 1 (by decide) (by decide)⟩

/-- With at most sixteen monitors `Apply` returns; the resolved display, the warnings
and the slot read for the display depend on the settings through the requested
display only. -/
theorem Apply_returns (vf : VidFlags) (p : Platform) (self : sys_video_c) (d : Int)
    (hcap : p.monitors.length ≤ 16) :
    ∃ display warnings target, ∀ set : sys_vidSet_s, set.display = d →
      Apply vf p self set = some (applyWindow vf p self set
        (storedRegistry p.monitors 0 self.mon) display warnings target) := by
  by_cases h1 : d ≥ (p.monitors.length : Int)
  · obtain ⟨target, ht⟩ := monAt_resolved p.monitors self.mon 0 hcap (Or.inl rfl)
    refine ⟨0, [(d, (p.monitors.length : Int) - 1)], target, ?_⟩
    intro set hset
    subst hset
    exact Apply_eq vf p self set hcap _ _ target
      (by unfold resolveDisplay; rw [if_pos h1]) ht
  · by_cases h2 : d < 0
    · obtain ⟨target, ht⟩ := monAt_resolved p.monitors self.mon _ hcap
        (autoDisplay_range p.monitors (PlatformGetCursorPos p))
      refine ⟨autoDisplay p.monitors (PlatformGetCursorPos p), [], target, ?_⟩
      intro set hset
      subst hset
      exact Apply_eq vf p self set hcap _ _ target
        (resolveDisplay_auto p.monitors self.mon set.display _ hcap h2) ht
    · obtain ⟨target, ht⟩ := monAt_resolved p.monitors self.mon d hcap
        (Or.inr ⟨by omega, by omega⟩)
      refine ⟨d, [], target, ?_⟩
      intro set hset
      subst hset
      exact Apply_eq vf p self set hcap _ _ target
        (by unfold resolveDisplay; rw [if_neg h1, if_neg h2]) ht

/-- The settings, default resolution and sizing call that `applyWindow` produces. -/
theorem applyWindow_fields (vf : VidFlags) (p : Platform) (self : sys_video_c)
    (set : sys_vidSet_s) (mon : Fin 16 → MonitorSpec) (display : Int)
    (warnings : List (Int × Int)) (target : MonitorSpec) :
    (applyWindow vf p self set mon display warnings target).state.defRes
        = (target.width, target.height) ∧
      (applyWindow vf p self set mon display warnings target).state.cur.flags
        = (if flagSet (debuggerFlags vf p set) vf.VID_USESAVED && set.save.maximised then
            debuggerFlags vf p set ||| vf.VID_MAXIMIZE
          else debuggerFlags vf p set) ∧
      (applyWindow vf p self set mon display warnings target).state.cur.mode
        = (if flagSet (debuggerFlags vf p set) vf.VID_USESAVED && !set.save.maximised then
            set.save.size
          else requestedMode set (target.width, target.height)) ∧
      sizeAsked (applyWindow vf p self set mon display warnings target).calls
        = some (applyWindow vf p self set mon display warnings target).state.cur.mode := by
  have hflags1 : (if p.debuggerRunning then set.flags &&& bitNot32 vf.VID_TOPMOST
      else set.flags) = debuggerFlags vf p set := rfl
  refine ⟨rfl, ?_, ?_, ?_⟩
  · simp only [applyWindow, hflags1]
    cases flagSet (debuggerFlags vf p set) vf.VID_USESAVED <;>
      cases set.save.maximised <;> rfl
  · simp only [applyWindow, hflags1, requestedMode]
    cases flagSet (debuggerFlags vf p set) vf.VID_USESAVED <;>
      cases set.save.maximised <;> rfl
  · cases hi : self.initialised <;> simp [applyWindow, hi, sizeAsked]

theorem debuggerFlags_usesaved (vf : VidFlags) (p : Platform) (set : sys_vidSet_s)
    (hvf : vf.WellFormed) :
    flagSet (debuggerFlags vf p set) vf.VID_USESAVED = flagSet set.flags vf.VID_USESAVED := by
  obtain ⟨-, -, hu, -, htu⟩ := hvf.facts
  unfold debuggerFlags
  split_ifs
  · exact flagSet_clear_other _ _ _ htu hu
  · rfl

theorem debuggerFlags_maximize (vf : VidFlags) (p : Platform) (set : sys_vidSet_s)
    (hvf : vf.WellFormed) :
    flagSet (debuggerFlags vf p set) vf.VID_MAXIMIZE = flagSet set.flags vf.VID_MAXIMIZE := by
  obtain ⟨-, hm, -, htm, -⟩ := hvf.facts
  unfold debuggerFlags
  split_ifs
  · exact flagSet_clear_other _ _ _ htm hm
  · rfl

/-- C9. Saved-maximised overrides saved size, for flag constants that are disjoint
32-bit masks and a monitor list that fits the sixteen slots of the registry: when the
settings have the use-saved-geometry flag set, `Apply` returns, and
(a) if the saved state is maximised, the current flags have the maximise flag set,
the current resolution is the requested one (the default one when the requested
width is 0), the window is sized with it, and flags, resolution and platform calls
are the same for every saved size;
(b) if the saved state is not maximised, the current resolution is the saved size,
the window is sized with it, and the maximise flag is as in the request. -/
theorem saved_maximised_overrides_size (vf : VidFlags) (p : Platform) (self : sys_video_c)
    (set : sys_vidSet_s) (hvf : vf.WellFormed) (hcap : p.monitors.length ≤ 16)
    (hsaved : flagSet set.flags vf.VID_USESAVED = true) :
    ∃ r, Apply vf p self set = some r ∧
      (set.save.maximised = true →
        flagSet r.state.cur.flags vf.VID_MAXIMIZE = true ∧
        r.state.cur.mode = requestedMode set r.state.defRes ∧
        sizeAsked r.calls = some (requestedMode set r.state.defRes) ∧
        ∀ size2 : Int × Int, ∃ r2,
          Apply vf p self { set with save := { set.save with size := size2 } } = some r2 ∧
          r2.state.cur.flags = r.state.cur.flags ∧
          r2.state.cur.mode = r.state.cur.mode ∧
          r2.calls = r.calls) ∧
      (set.save.maximised = false →
        r.state.cur.mode = set.save.size ∧
        sizeAsked r.calls = some set.save.size ∧
        flagSet r.state.cur.flags vf.VID_MAXIMIZE = flagSet set.flags vf.VID_MAXIMIZE) := by
  obtain ⟨display, warnings, target, hA⟩ := Apply_returns vf p self set.display hcap
  have huse := debuggerFlags_usesaved vf p set hvf
  rw [hsaved] at huse
  obtain ⟨hdef, hflags, hmode, hcall⟩ := applyWindow_fields vf p self set
    (storedRegistry p.monitors 0 self.mon) display warnings target
  refine ⟨_, hA set rfl, ?_, ?_⟩
  · intro hmax
    rw [huse, hmax] at hflags hmode
    simp only [Bool.and_self, if_true, Bool.not_true, Bool.and_false, Bool.false_eq_true,
      if_false] at hflags hmode
    refine ⟨?_, ?_, ?_, ?_⟩
    · rw [hflags]
      unfold flagSet
      rw [lor_land_self]
      have := hvf.facts.1
      simp only [bne_iff_ne, ne_eq]
      omega
    · rw [hmode, hdef]
    · rw [hdef, ← hmode]
      exact hcall
    · intro size2
      refine ⟨_, hA { set with save := { set.save with size := size2 } } rfl, ?_, ?_, ?_⟩
      · simp [applyWindow, hmax]
      · simp [applyWindow, hmax]
      · simp [applyWindow, hmax]
  · intro hmax
    rw [huse, hmax] at hflags hmode
    simp only [Bool.and_false, Bool.false_eq_true, if_false, Bool.not_false, Bool.and_self,
      if_true] at hflags hmode
    refine ⟨hmode, ?_, ?_⟩
    · rw [← hmode]
      exact hcall
    · rw [hflags]
      exact debuggerFlags_maximize vf p set hvf


theorem saved_maximised_overrides_size_witness :
    ∃ r, Apply sampleFlags samplePlatform sys_video_c.init (sampleSet 0 9 true) = some r ∧
      flagSet r.state.cur.flags 4 = true ∧ r.state.cur.mode = (800, 600) ∧
      sizeAsked r.calls = some (800, 600) := by
  obtain ⟨r, h1, h2, -⟩ := saved_maximised_overrides_size sampleFlags samplePlatform
    sys_video_c.init (sampleSet 0 9 true) (by decide) (by decide) (by decide)
  obtain ⟨h3, h4, h5, -⟩ := h2 rfl
  exact ⟨r, h1, h3, h4, h5⟩
/-! ## Mouse buttons: distance and frame -/

/-- C17. Distance negative case: from a state with no pending click and a recorded
cursor position `p1`, two presses of the same recognised button no more than 500 ms
apart, the second made with the recorded position `p2` more than 5 away from `p1` on
the x axis or on the y axis, both emit an ordinary key-down, and the pending click
afterwards is the second press: its button, its time and its position.  The
positions are `int` values, and their difference on each axis is representable as
`int` together with its absolute value. -/
theorem far_presses_no_double_click (env : Env) (s : SysState)
    (button mods1 mods2 T1 T2 k : Int) (p1 p2 : CursorPos)
    (hkeys : env.keys.InByteRange)
    (hB : sgKeyOf env.keys button = some k)
    (hpending : s.video.lastClick = none)
    (hpos : s.video.lastCursorPos = some p1)
    (hp1 : p1.InIntRange) (hp2 : p2.InIntRange)
    (hdx : |p1.x - p2.x| < 2 ^ 31) (hdy : |p1.y - p2.y| < 2 ^ 31)
    (hT : T1 ≤ T2) (hdelay : T2 - T1 ≤ 500 * env.ticksPerMs)
    (hfar : |p1.x - p2.x| > 5 ∨ |p1.y - p2.y| > 5) :
    (run env s [.mouseButton button GLFW_PRESS mods1 T1,
        .cursorPos (.finite p2.x) (.finite p2.y),
        .mouseButton button GLFW_PRESS mods2 T2]).2
        = [⟨k, KE_KEYDOWN⟩, ⟨k, KE_KEYDOWN⟩] ∧
      (run env s [.mouseButton button GLFW_PRESS mods1 T1,
        .cursorPos (.finite p2.x) (.finite p2.y),
        .mouseButton button GLFW_PRESS mods2 T2]).1.video.lastClick
        = some ⟨T2, p2, k⟩ := by
  have hb := sgKeyOf_toByte hkeys hB
  obtain ⟨h1, hc, hp⟩ := press_with_position env s button mods1 T1 k p1 hB hpos
  rw [hpending, clickType_none] at h1 hc
  simp only [reduceCtorEq, if_false] at hc
  simp only [run, step, List.append_nil, List.nil_append]
  generalize mouseButtonCallback env s button GLFW_PRESS mods1 T1 = r1 at h1 hc hp ⊢
  obtain ⟨hq, hq2⟩ := cursorPos_fields r1.1 p2.x p2.y
  generalize cursorPosCallback r1.1 (.finite p2.x) (.finite p2.y) = s2 at hq hq2 ⊢
  obtain ⟨h2, hc2, -⟩ := press_with_position env s2 button mods2 T2 k _ hB hq
  have hfar2 : (|p1.x - p2.x| > 5 ∧ |p1.x - p2.x| < 2 ^ 31) ∨
      (|p1.y - p2.y| > 5 ∧ |p1.y - p2.y| < 2 ^ 31) := by
    rcases hfar with h | h
    · exact Or.inl ⟨h, hdx⟩
    · exact Or.inr ⟨h, hdy⟩
  have hkeep : clickType env (some ⟨T1, p1, toByte k⟩) k T2 ⟨p2.x, p2.y⟩ KE_KEYDOWN
      = KE_KEYDOWN :=
    clickType_keep env ⟨T1, p1, toByte k⟩ k T2 ⟨p2.x, p2.y⟩ _ (Or.inr (Or.inr hfar2))
  rw [hq2, hc, hkeep] at h2 hc2
  simp only [reduceCtorEq, if_false, hb] at hc2
  refine ⟨?_, hc2⟩
  rw [h1, h2]; rfl

theorem far_presses_no_double_click_witness :
    (run sampleEnv sampleState [.mouseButton 0 GLFW_PRESS 0 1000,
        .cursorPos (.finite ((100 : Int) : ℚ)) (.finite ((106 : Int) : ℚ)),
        .mouseButton 0 GLFW_PRESS 0 3000000]).2
        = [⟨1, KE_KEYDOWN⟩, ⟨1, KE_KEYDOWN⟩] ∧
      (run sampleEnv sampleState [.mouseButton 0 GLFW_PRESS 0 1000,
        .cursorPos (.finite ((100 : Int) : ℚ)) (.finite ((106 : Int) : ℚ)),
        .mouseButton 0 GLFW_PRESS 0 3000000]).1.video.lastClick
        = some ⟨3000000, ⟨100, 106⟩, 1⟩ :=
  far_presses_no_double_click sampleEnv sampleState 0 0 0 1000 3000000 1 ⟨100, 100⟩
    ⟨100, 106⟩ (by decide) rfl rfl rfl (by decide) (by decide) (by decide) (by decide)
    (by decide) (by decide) (Or.inr (by decide))

/-- C18. Pending-click frame: in every state, a notification other than a press for a
recognised button (a release) emits exactly key-up of its code and leaves the pending
click as it was; a press of a recognised button while no cursor position is recorded
emits exactly key-down of its code and leaves the pending click as it was; a
notification for an unrecognised button emits nothing and leaves the whole state,
pending click and held keys included, as it was. -/
theorem pending_click_frame (env : Env) (s : SysState) (button action mods now : Int) :
    (∀ k, sgKeyOf env.keys button = some k → action ≠ GLFW_PRESS →
      (mouseButtonCallback env s button action mods now).2 = [⟨k, KE_KEYUP⟩] ∧
      (mouseButtonCallback env s button action mods now).1.video.lastClick
        = s.video.lastClick) ∧
    (∀ k, sgKeyOf env.keys button = some k → s.video.lastCursorPos = none →
      (mouseButtonCallback env s button GLFW_PRESS mods now).2 = [⟨k, KE_KEYDOWN⟩] ∧
      (mouseButtonCallback env s button GLFW_PRESS mods now).1.video.lastClick
        = s.video.lastClick) ∧
    (sgKeyOf env.keys button = none →
      mouseButtonCallback env s button action mods now = (s, [])) := by
  refine ⟨?_, ?_, ?_⟩
  · intro k hB ha
    have hb : (action == GLFW_PRESS) = false := by simpa using ha
    refine ⟨?_, (button_not_press env s button action mods now ha).1⟩
    unfold mouseButtonCallback
    simp [hB, hb]
  · intro k hB hs
    refine ⟨?_, (button_without_position env s button GLFW_PRESS mods now hs).1⟩
    unfold mouseButtonCallback
    simp [hB, hs]
  · intro hB
    unfold mouseButtonCallback
    simp [hB]

theorem pending_click_frame_witness :
    (mouseButtonCallback sampleEnv pendingState 0 GLFW_RELEASE 0 2000).2
        = [⟨1, KE_KEYUP⟩] ∧
      (mouseButtonCallback sampleEnv pendingState 0 GLFW_RELEASE 0 2000).1.video.lastClick
        = some ⟨1000, ⟨100, 100⟩, 1⟩ :=
  (pending_click_frame sampleEnv pendingState 0 GLFW_RELEASE 0 2000).1 1 rfl (by decide)

/-! ## Close request and cursor containment -/

/-- C13. Close veto: on a window-close request the value given to
`glfwSetWindowShouldClose` is "system started and `CanExit()`"; `CanExit` is called
once when the system is started and not at all when it is not. -/
theorem close_veto (sysInitialised canExit : Bool) :
    (windowCloseCallback sysInitialised canExit).1 = (sysInitialised && canExit) ∧
      (sysInitialised = false → (windowCloseCallback sysInitialised canExit).2 = 0) ∧
      (sysInitialised = true → (windowCloseCallback sysInitialised canExit).2 = 1) := by
  cases sysInitialised <;> simp [windowCloseCallback]

theorem close_veto_witness : (windowCloseCallback false true).2 = 0 :=
  (close_veto false true).2.1 rfl

/-- The callbacks leave `initialised` and `wnd` alone, and only the cursor enter
callback changes the containment flag. -/
theorem step_video_frame (env : Env) (s : SysState) (n : Notification) :
    (step env s n).1.video.initialised = s.video.initialised ∧
      (step env s n).1.video.wnd = s.video.wnd ∧
      (n.isCursorEnter = false →
        (step env s n).1.video.cursorInWindow = s.video.cursorInWindow) := by
  cases n with
  | cursorEnter entered =>
    simp only [step, cursorEnterCallback, Notification.isCursorEnter]
    split_ifs <;> simp
  | cursorPos x y => exact ⟨rfl, rfl, fun _ => rfl⟩
  | char c => exact ⟨rfl, rfl, fun _ => rfl⟩
  | key key scancode action mods =>
    simp only [step, keyCallback]
    split_ifs <;> exact ⟨rfl, rfl, fun _ => rfl⟩
  | mouseButton button action mods now =>
    simp only [step, mouseButtonCallback]
    cases sgKeyOf env.keys button with
    | none => exact ⟨rfl, rfl, fun _ => rfl⟩
    | some k =>
      simp only
      split <;> exact ⟨rfl, rfl, fun _ => rfl⟩
  | scroll x y => exact ⟨rfl, rfl, fun _ => rfl⟩

theorem run_video_frame (env : Env) (rest : List Notification) :
    ∀ s : SysState, (∀ n ∈ rest, n.isCursorEnter = false) →
      (run env s rest).1.video.initialised = s.video.initialised ∧
      (run env s rest).1.video.wnd = s.video.wnd ∧
      (run env s rest).1.video.cursorInWindow = s.video.cursorInWindow := by
  induction rest with
  | nil => intro s _; exact ⟨rfl, rfl, rfl⟩
  | cons n rest ih =>
    intro s h
    obtain ⟨h1, h2, h3⟩ := ih (step env s n).1 (fun m hm => h m (List.mem_cons_of_mem _ hm))
    obtain ⟨g1, g2, g3⟩ := step_video_frame env s n
    simp only [run]
    exact ⟨h1.trans g1, h2.trans g2, h3.trans (g3 (h n (List.mem_cons_self _ _)))⟩

/-- C20. `IsCursorOverWindow` returns the tracked containment flag when the object is
initialised, has a window handle and the window is visible, and returns true in every
other case.  The tracked flag after a cursor enter or leave notification and any
later notifications of other kinds is true for enter and false for leave, and the
notifications change neither `initialised` nor the handle. -/
theorem cursor_over_window (env : Env) (s : SysState) (entered : Int)
    (rest : List Notification) (hrest : ∀ n ∈ rest, n.isCursorEnter = false)
    (self : sys_video_c) (visibleAttrib : Int) :
    (self.initialised = true → self.wnd ≠ none → visibleAttrib ≠ 0 →
      IsCursorOverWindow self visibleAttrib = self.cursorInWindow) ∧
    (self.initialised = false ∨ self.wnd = none ∨ visibleAttrib = 0 →
      IsCursorOverWindow self visibleAttrib = true) ∧
    (run env s (.cursorEnter entered :: rest)).1.video.cursorInWindow
      = decide (entered ≠ 0) ∧
    (run env s (.cursorEnter entered :: rest)).1.video.initialised = s.video.initialised ∧
    (run env s (.cursorEnter entered :: rest)).1.video.wnd = s.video.wnd := by
  refine ⟨?_, ?_, ?_, ?_, ?_⟩
  · intro hi hw hv
    obtain ⟨w, hw2⟩ := Option.ne_none_iff_exists'.mp hw
    simp [IsCursorOverWindow, IsVisible, hi, hw2, hv]
  · intro h
    rcases h with h | h | h
    · simp [IsCursorOverWindow, h]
    · simp [IsCursorOverWindow, h]
    · simp [IsCursorOverWindow, IsVisible, h]
  · obtain ⟨-, -, h3⟩ := run_video_frame env rest (step env s (.cursorEnter entered)).1 hrest
    simp only [run]
    rw [h3]
    simp only [step, cursorEnterCallback]
    split_ifs with h <;> simp_all
  · obtain ⟨h1, -, -⟩ := run_video_frame env rest (step env s (.cursorEnter entered)).1 hrest
    simp only [run]
    rw [h1]
    exact (step_video_frame env s (.cursorEnter entered)).1
  · obtain ⟨-, h2, -⟩ := run_video_frame env rest (step env s (.cursorEnter entered)).1 hrest
    simp only [run]
    rw [h2]
    exact (step_video_frame env s (.cursorEnter entered)).2.1

theorem cursor_over_window_witness :
    IsCursorOverWindow sampleVideo 1 = sampleVideo.cursorInWindow ∧
      IsCursorOverWindow sys_video_c.init 1 = true ∧
      (run sampleEnv sampleState [.cursorEnter 0, .mouseButton 0 GLFW_PRESS 0 5]).1.video.cursorInWindow
        = false :=
  have h := cursor_over_window sampleEnv sampleState 0 [.mouseButton 0 GLFW_PRESS 0 5]
    (by decide) sampleVideo 1
  have g := cursor_over_window sampleEnv sampleState 0 [] (by decide) sys_video_c.init 1
  ⟨h.1 rfl (by decide) (by decide), g.2.1 (Or.inl rfl), h.2.2.1⟩

/-! ## `Apply`: further facts on the registry -/

/-- Storing the same list twice gives the registry of storing it once. -/
theorem storedRegistry_idem (monitors : List MonitorSpec) (mon : Fin 16 → MonitorSpec) :
    storedRegistry monitors 0 (storedRegistry monitors 0 mon)
      = storedRegistry monitors 0 mon := by
  funext j
  simp only [storedRegistry, Nat.zero_le, if_true, Nat.sub_zero]
  by_cases h : j.val < monitors.length
  · rw [List.getD_eq_getElem _ _ h, List.getD_eq_getElem _ _ h]
  · have hle : monitors.length ≤ j.val := by omega
    simp only [List.getD_eq_default _ _ hle]

/-- Over the refreshed registry the resolution block returns, and the resolved
display is 0 or an index of the monitor list. -/
theorem resolveDisplay_total (monitors : List MonitorSpec) (mon : Fin 16 → MonitorSpec)
    (d : Int) (cursor : Option (Int × Int)) (hcap : monitors.length ≤ 16) :
    ∃ display warnings,
      resolveDisplay monitors.length (storedRegistry monitors 0 mon) d cursor
        = some (display, warnings) ∧
      (display = 0 ∨ (0 ≤ display ∧ display < monitors.length)) := by
  by_cases h1 : d ≥ (monitors.length : Int)
  · exact ⟨0, [(d, (monitors.length : Int) - 1)],
      by unfold resolveDisplay; rw [if_pos h1], Or.inl rfl⟩
  · by_cases h2 : d < 0
    · exact ⟨_, [], resolveDisplay_auto monitors mon d cursor hcap h2,
        autoDisplay_range monitors cursor⟩
    · exact ⟨d, [], by unfold resolveDisplay; rw [if_neg h1, if_neg h2],
        Or.inr ⟨by omega, by omega⟩⟩

/-- With more than sixteen monitors the refresh and `Apply` index `mon` outside its
slots. -/
theorem refresh_overflow (monitors : List MonitorSpec) (self : sys_video_c)
    (h : 16 < monitors.length) :
    RefreshMonitorInfo monitors self = none ∧
      ∀ (vf : VidFlags) (p : Platform) (set : sys_vidSet_s), p.monitors = monitors →
        Apply vf p self set = none := by
  have hs := storeMonitors_overflow monitors 0 self.mon (by omega) (by omega)
  constructor
  · simp [RefreshMonitorInfo, hs]
  · intro vf p set hp
    subst hp
    simp [Apply, hs]

/-- With at most sixteen monitors the refresh records the length of the list and
stores the monitors in enumeration order. -/
theorem refresh_within (monitors : List MonitorSpec) (self : sys_video_c)
    (h : monitors.length ≤ 16) :
    ∃ self2, RefreshMonitorInfo monitors self = some self2 ∧
      self2.numMon = monitors.length ∧
      self2.mon = storedRegistry monitors 0 self.mon := by
  unfold RefreshMonitorInfo
  rw [storeMonitors_eq monitors 0 self.mon (by omega)]
  exact ⟨_, rfl, rfl, rfl⟩

/-- `Apply` when no monitor is reported: the registry stays as it was and slot 0 is
the target. -/
theorem Apply_empty (vf : VidFlags) (p : Platform) (self : sys_video_c)
    (set : sys_vidSet_s) (hempty : p.monitors = []) :
    ∃ warnings, Apply vf p self set
      = some (applyWindow vf p self set self.mon 0 warnings (self.mon 0)) := by
  have hcap : p.monitors.length ≤ 16 := by simp [hempty]
  have hreg : storedRegistry p.monitors 0 self.mon = self.mon := by
    funext j
    simp [storedRegistry, hempty]
  obtain ⟨display, warnings, hres, hrange⟩ :=
    resolveDisplay_total p.monitors self.mon set.display (PlatformGetCursorPos p) hcap
  have hd : display = 0 := by
    rcases hrange with h | ⟨h1, h2⟩
    · exact h
    · simp only [hempty, List.length_nil, Nat.cast_zero] at h2
      omega
  subst hd
  have h := Apply_eq vf p self set hcap 0 warnings (self.mon 0) hres
    (by rw [hreg]; exact monAt_zero _)
  rw [hreg] at h
  exact ⟨warnings, h⟩

/-- With at most sixteen monitors `Apply` returns the result built from the refreshed
registry, the display the resolution block yields and the slot of that display. -/
theorem Apply_resolved (vf : VidFlags) (p : Platform) (self : sys_video_c)
    (set : sys_vidSet_s) (hcap : p.monitors.length ≤ 16) :
    ∃ display warnings target,
      resolveDisplay p.monitors.length (storedRegistry p.monitors 0 self.mon)
        set.display (PlatformGetCursorPos p) = some (display, warnings) ∧
      monAt (storedRegistry p.monitors 0 self.mon) display = some target ∧
      Apply vf p self set = some (applyWindow vf p self set
        (storedRegistry p.monitors 0 self.mon) display warnings target) := by
  obtain ⟨display, warnings, hres, hrange⟩ :=
    resolveDisplay_total p.monitors self.mon set.display (PlatformGetCursorPos p) hcap
  obtain ⟨target, ht⟩ := monAt_resolved p.monitors self.mon display hcap hrange
  exact ⟨display, warnings, target, hres, ht, Apply_eq vf p self set hcap _ _ target hres ht⟩

/-- `Apply` on a request for a display that is an index of the monitor list. -/
theorem Apply_explicit (vf : VidFlags) (p : Platform) (self : sys_video_c)
    (set : sys_vidSet_s) (hcap : p.monitors.length ≤ 16) (m : Nat) (spec : MonitorSpec)
    (hd : set.display = m) (hspec : p.monitors[m]? = some spec) :
    Apply vf p self set = some (applyWindow vf p self set
      (storedRegistry p.monitors 0 self.mon) m [] spec) := by
  obtain ⟨hlt, -⟩ := List.getElem?_eq_some.mp hspec
  refine Apply_eq vf p self set hcap _ _ spec ?_
    (monAt_storedRegistry p.monitors self.mon m spec hcap hspec)
  unfold resolveDisplay
  rw [if_neg (by omega), if_neg (by omega), hd]

/-- Where neither the subtraction nor the addition leaves the `int` range, the
centring expression has its mathematical value. -/
theorem centreAxis_of_inRange (size win origin : Int) (h1 : InInt32 (size - win))
    (h2 : InInt32 (Int.tdiv (size - win) 2 + origin)) :
    centreAxis size win origin = Int.tdiv (size - win) 2 + origin := by
  unfold centreAxis
  rw [wrapInt_of_inRange h1, wrapInt_of_inRange h2]

/-- Position and resolution that `applyWindow` computes when the use-saved-geometry
flag is not set after the debugger adjustment. -/
theorem applyWindow_centred (vf : VidFlags) (p : Platform) (self : sys_video_c)
    (set : sys_vidSet_s) (mon : Fin 16 → MonitorSpec) (display : Int)
    (warnings : List (Int × Int)) (target : MonitorSpec)
    (h : flagSet (debuggerFlags vf p set) vf.VID_USESAVED = false) :
    (applyWindow vf p self set mon display warnings target).state.cur.mode
        = requestedMode set (target.width, target.height) ∧
      (applyWindow vf p self set mon display warnings target).state.vid.pos
        = (centreAxis target.width (requestedMode set (target.width, target.height)).1
            target.left,
          centreAxis target.height (requestedMode set (target.width, target.height)).2
            target.top) ∧
      (applyWindow vf p self set mon display warnings target).calls.getLast?
        = some (PlatformCall.setWindowPos
          (applyWindow vf p self set mon display warnings target).state.vid.pos.1
          (applyWindow vf p self set mon display warnings target).state.vid.pos.2) := by
  have hflags1 : (if p.debuggerRunning then set.flags &&& bitNot32 vf.VID_TOPMOST
      else set.flags) = debuggerFlags vf p set := rfl
  refine ⟨?_, ?_, ?_⟩
  · simp only [applyWindow, hflags1, h, requestedMode, Vector2Copy]
    rfl
  · simp only [applyWindow, hflags1, h, requestedMode, Vector2Copy]
    rfl
  · simp [applyWindow]

/-! ## `Apply`: repeated calls, status code, monitor count -/

/-- C11. Idempotence of `Apply`: on an initialised object, with a monitor list that
fits the sixteen slots of the registry, a first call and a second call made with the
same settings, monitor list, cursor position, debugger flag and platform answers both
return; the second makes the same calls on the windowing layer and leaves the same
position and size (the whole of `vid`) and the same current settings as the first. -/
theorem apply_idempotent (vf : VidFlags) (p : Platform) (self : sys_video_c)
    (set : sys_vidSet_s) (hcap : p.monitors.length ≤ 16)
    (hinit : self.initialised = true) :
    ∃ r1 r2, Apply vf p self set = some r1 ∧ Apply vf p r1.state set = some r2 ∧
      r2.state.vid.pos = r1.state.vid.pos ∧ r2.state.vid.size = r1.state.vid.size ∧
      r2.state.vid = r1.state.vid ∧ r2.state.cur = r1.state.cur ∧ r2.calls = r1.calls := by
  obtain ⟨display, warnings, target, hres, ht, hA⟩ := Apply_resolved vf p self set hcap
  have hmon : (applyWindow vf p self set (storedRegistry p.monitors 0 self.mon) display
      warnings target).state.mon = storedRegistry p.monitors 0 self.mon := rfl
  have hidem := storedRegistry_idem p.monitors self.mon
  have hA2 := Apply_eq vf p (applyWindow vf p self set
    (storedRegistry p.monitors 0 self.mon) display warnings target).state set hcap display
    warnings target (by rw [hmon, hidem]; exact hres) (by rw [hmon, hidem]; exact ht)
  refine ⟨_, _, hA, hA2, rfl, rfl, rfl, rfl, ?_⟩
  simp [applyWindow, hinit, Vector2Copy]

theorem apply_idempotent_witness :
    ∃ r1 r2, Apply sampleFlags samplePlatform sampleVideo (sampleSet 1 0 false) = some r1 ∧
      Apply sampleFlags samplePlatform r1.state (sampleSet 1 0 false) = some r2 ∧
      r2.state.vid.pos = r1.state.vid.pos ∧ r2.state.vid.size = r1.state.vid.size := by
  obtain ⟨r1, r2, h1, h2, h3, h4, -⟩ := apply_idempotent sampleFlags samplePlatform
    sampleVideo (sampleSet 1 0 false) (by decide) rfl
  exact ⟨r1, r2, h1, h2, h3, h4⟩

/-- C12, as stated, fails: on an object not yet initialised, with window creation
failing, `Apply` prints the error description and leaves the handle null, and the
value it returns is 0, not a non-zero code. -/
theorem apply_status_code_counterexample :
    ∃ r, Apply sampleFlags failingPlatform sys_video_c.init (sampleSet 0 0 false) = some r ∧
      r.state.wnd = none ∧ r.prints = ["no display"] ∧ ¬ (r.ret ≠ 0) := by
  obtain ⟨display, warnings, target, -, -, hA⟩ := Apply_resolved sampleFlags failingPlatform
    sys_video_c.init (sampleSet 0 0 false) (by decide)
  exact ⟨_, hA, rfl, rfl, by simp [applyWindow]⟩

/-- C12, amended.  With a monitor list that fits the sixteen slots of the registry,
`Apply` returns 0 on every call and leaves the object initialised; when it creates
the window and creation fails, it prints the platform error description and leaves
the handle null (and still returns 0); when creation succeeds the handle is the
created window and nothing is printed; on an initialised object the handle is kept
and nothing is printed. -/
theorem apply_status_code (vf : VidFlags) (p : Platform) (self : sys_video_c)
    (set : sys_vidSet_s) (hcap : p.monitors.length ≤ 16) :
    ∃ r, Apply vf p self set = some r ∧ r.ret = 0 ∧ r.state.initialised = true ∧
      (self.initialised = false → p.createWindow = none →
        r.state.wnd = none ∧ r.prints = [p.errDesc]) ∧
      (self.initialised = false → ∀ w, p.createWindow = some w →
        r.state.wnd = some w ∧ r.prints = []) ∧
      (self.initialised = true → r.state.wnd = self.wnd ∧ r.prints = []) := by
  obtain ⟨display, warnings, target, -, -, hA⟩ := Apply_resolved vf p self set hcap
  refine ⟨_, hA, rfl, rfl, ?_, ?_, ?_⟩
  · intro hi hw
    simp [applyWindow, hi, hw]
  · intro hi w hw
    simp [applyWindow, hi, hw]
  · intro hi
    simp [applyWindow, hi]

theorem apply_status_code_witness :
    ∃ r, Apply sampleFlags samplePlatform sys_video_c.init (sampleSet 0 0 false) = some r ∧
      r.ret = 0 ∧ r.state.wnd = some 1 ∧ r.prints = [] := by
  obtain ⟨r, h1, h2, -, -, h3, -⟩ := apply_status_code sampleFlags samplePlatform
    sys_video_c.init (sampleSet 0 0 false) (by decide)
  exact ⟨r, h1, h2, (h3 rfl 1 rfl).1, (h3 rfl 1 rfl).2⟩

/-- C14, the code at seventeen monitors: the store loop of `RefreshMonitorInfo` and
of `Apply` reaches index 16 and stores outside the sixteen slots of `mon`; neither
call has a defined result, so no count of 16 is recorded and no monitor is dropped. -/
theorem monitor_cap_overflow :
    monitors17.length = 17 ∧
      storeMonitors (monitors17.take 16) 0 sys_video_c.init.mon
        = some (storedRegistry (monitors17.take 16) 0 sys_video_c.init.mon) ∧
      storeMonitors monitors17 0 sys_video_c.init.mon = none ∧
      RefreshMonitorInfo monitors17 sys_video_c.init = none ∧
      Apply sampleFlags crowdedPlatform sys_video_c.init (sampleSet 0 0 false) = none := by
  have hlen : monitors17.length = 17 := by decide
  have hov := refresh_overflow monitors17 sys_video_c.init (by rw [hlen]; decide)
  refine ⟨hlen, ?_, ?_, hov.1, hov.2 _ _ _ rfl⟩
  · exact storeMonitors_eq _ 0 _ (by simp [hlen])
  · exact storeMonitors_overflow monitors17 0 _ (by decide) (by rw [hlen]; decide)

/-! ## `Apply`: empty monitor list, centring, default resolution -/

/-- C15, as stated, fails: after a call of `Apply` that saw two monitors, the first
of 1920x1080 with origin (-1920, 0), a call with no monitor reported resolves display
0 but takes 1920x1080 as default resolution and centres the 800x600 window with the
origin (-1920, 0), not with zero geometry. -/
theorem empty_monitor_list_counterexample :
    ∃ r1 r2,
      Apply sampleFlags shiftedPlatform sys_video_c.init (sampleSet 0 0 false) = some r1 ∧
      Apply sampleFlags emptyPlatform r1.state (sampleSet 0 0 false) = some r2 ∧
      r2.state.cur.display = 0 ∧ r2.state.defRes = (1920, 1080) ∧
      r2.state.defRes ≠ (0, 0) ∧ r2.state.vid.pos = (-1360, 240) ∧
      r2.state.vid.pos ≠ (Int.tdiv (0 - 800) 2 + 0, Int.tdiv (0 - 600) 2 + 0) := by
  obtain ⟨display, warnings, target, hres, ht, hA⟩ := Apply_resolved sampleFlags
    shiftedPlatform sys_video_c.init (sampleSet 0 0 false) (by decide)
  have hd : display = 0 ∧ warnings = [] := by
    have h : resolveDisplay shiftedPlatform.monitors.length
        (storedRegistry shiftedPlatform.monitors 0 sys_video_c.init.mon)
        (sampleSet 0 0 false).display (PlatformGetCursorPos shiftedPlatform)
          = some (0, []) := by
      unfold resolveDisplay
      rw [if_neg (by decide), if_neg (by decide)]
      rfl
    rw [h] at hres
    simp only [Option.some.injEq, Prod.mk.injEq] at hres
    exact ⟨hres.1.symm, hres.2.symm⟩
  obtain ⟨hd0, hw⟩ := hd
  subst hd0
  have htarget : target = ⟨1, -1920, 0, 1920, 1080⟩ := by
    have h : monAt (storedRegistry shiftedPlatform.monitors 0 sys_video_c.init.mon) 0
        = some ⟨1, -1920, 0, 1920, 1080⟩ := by
      rw [monAt_zero]
      rfl
    rw [h] at ht
    exact (Option.some.inj ht).symm
  subst htarget
  obtain ⟨w2, hA2⟩ := Apply_empty sampleFlags emptyPlatform
    (applyWindow sampleFlags shiftedPlatform sys_video_c.init (sampleSet 0 0 false)
      (storedRegistry shiftedPlatform.monitors 0 sys_video_c.init.mon) 0 warnings
      ⟨1, -1920, 0, 1920, 1080⟩).state (sampleSet 0 0 false) rfl
  refine ⟨_, _, hA, hA2, rfl, ?_, ?_, ?_, ?_⟩
  · rfl
  · show ((1920 : Int), (1080 : Int)) ≠ (0, 0)
    decide
  · show ((-1360 : Int), (240 : Int)) = (-1360, 240)
    rfl
  · show ((-1360 : Int), (240 : Int)) ≠ (Int.tdiv (0 - 800) 2 + 0, Int.tdiv (0 - 600) 2 + 0)
    decide

/-- C15, amended.  Whenever the platform reports no monitor, `Apply` returns, records
the count 0, resolves the target display to index 0 and leaves the registry as the
prior state had it; the geometry it uses is that of slot 0 of the prior registry:
the default resolution is the size held in slot 0 and, when the window is centred,
the centring expression of `Apply` is evaluated with the size and the origin held in
slot 0.  When slot 0 holds zero geometry, as in an object on which no refresh has
seen a monitor, the default resolution is (0, 0) and the centring is done with size
(0, 0) and origin (0, 0). -/
theorem empty_monitor_list (vf : VidFlags) (p : Platform) (self : sys_video_c)
    (set : sys_vidSet_s) (hempty : p.monitors = []) :
    ∃ r, Apply vf p self set = some r ∧ r.state.numMon = 0 ∧ r.state.cur.display = 0 ∧
      r.state.mon = self.mon ∧
      r.state.defRes = ((self.mon 0).width, (self.mon 0).height) ∧
      (flagSet (debuggerFlags vf p set) vf.VID_USESAVED = false →
        r.state.vid.pos =
          (centreAxis (self.mon 0).width (requestedMode set r.state.defRes).1
              (self.mon 0).left,
            centreAxis (self.mon 0).height (requestedMode set r.state.defRes).2
              (self.mon 0).top)) ∧
      (self.mon 0 = ⟨(self.mon 0).hnd, 0, 0, 0, 0⟩ →
        r.state.defRes = (0, 0) ∧
        (flagSet (debuggerFlags vf p set) vf.VID_USESAVED = false →
          r.state.vid.pos =
            (centreAxis 0 (requestedMode set (0, 0)).1 0,
              centreAxis 0 (requestedMode set (0, 0)).2 0))) := by
  obtain ⟨warnings, hA⟩ := Apply_empty vf p self set hempty
  have hpos := fun h => (applyWindow_centred vf p self set self.mon 0 warnings (self.mon 0) h).2.1
  refine ⟨_, hA, ?_, rfl, rfl, rfl, hpos, ?_⟩
  · show ((p.monitors.length : Nat) : Int) = 0
    rw [hempty]
    rfl
  · intro hzero
    have hw : (self.mon 0).width = 0 := by rw [hzero]
    have hh : (self.mon 0).height = 0 := by rw [hzero]
    have hl : (self.mon 0).left = 0 := by rw [hzero]
    have ht : (self.mon 0).top = 0 := by rw [hzero]
    refine ⟨?_, ?_⟩
    · show ((self.mon 0).width, (self.mon 0).height) = (0, 0)
      rw [hw, hh]
    · intro h
      rw [hpos h, hw, hh, hl, ht]

theorem empty_monitor_list_witness :
    ∃ r, Apply sampleFlags emptyPlatform sys_video_c.init (sampleSet (-1) 0 false) = some r ∧
      r.state.cur.display = 0 ∧ r.state.defRes = (0, 0) ∧ r.state.vid.pos = (-400, -300) := by
  obtain ⟨r, h1, -, h2, -, -, -, h3⟩ := empty_monitor_list sampleFlags emptyPlatform
    sys_video_c.init (sampleSet (-1) 0 false) rfl
  obtain ⟨h4, h5⟩ := h3 rfl
  exact ⟨r, h1, h2, h4, (h5 (by decide)).trans (by decide)⟩

/-- C16. Centring: for flag constants that are disjoint 32-bit masks, a monitor list
that fits the sixteen slots of the registry and settings without the
use-saved-geometry flag, `Apply` returns, and with `target` the slot of the resolved
display (the monitor of that index in the list when there is one) and the window size
the requested resolution after default substitution, which is also the current
resolution, the position stored in `vid.pos` and passed to `glfwSetWindowPos` is the
centring expression of `Apply` on each axis; on an axis where monitor size - window
size and the final sum are representable as `int`, it is
(monitor size - window size) / 2 + monitor origin, the division truncating. -/
theorem centred_position (vf : VidFlags) (p : Platform) (self : sys_video_c)
    (set : sys_vidSet_s) (hvf : vf.WellFormed) (hcap : p.monitors.length ≤ 16)
    (hnosave : flagSet set.flags vf.VID_USESAVED = false) :
    ∃ r target, Apply vf p self set = some r ∧
      monAt r.state.mon r.state.cur.display = some target ∧
      (∀ (m : Nat) (spec : MonitorSpec), r.state.cur.display = m →
        p.monitors[m]? = some spec → target = spec) ∧
      r.state.cur.mode = requestedMode set (target.width, target.height) ∧
      r.state.vid.pos =
        (centreAxis target.width r.state.cur.mode.1 target.left,
          centreAxis target.height r.state.cur.mode.2 target.top) ∧
      (InInt32 (target.width - r.state.cur.mode.1) →
        InInt32 (Int.tdiv (target.width - r.state.cur.mode.1) 2 + target.left) →
        r.state.vid.pos.1 = Int.tdiv (target.width - r.state.cur.mode.1) 2 + target.left) ∧
      (InInt32 (target.height - r.state.cur.mode.2) →
        InInt32 (Int.tdiv (target.height - r.state.cur.mode.2) 2 + target.top) →
        r.state.vid.pos.2 = Int.tdiv (target.height - r.state.cur.mode.2) 2 + target.top) ∧
      r.calls.getLast? = some (PlatformCall.setWindowPos r.state.vid.pos.1 r.state.vid.pos.2) := by
  obtain ⟨display, warnings, target, -, ht, hA⟩ := Apply_resolved vf p self set hcap
  have huse := debuggerFlags_usesaved vf p set hvf
  rw [hnosave] at huse
  obtain ⟨h1, h2, h3⟩ := applyWindow_centred vf p self set
    (storedRegistry p.monitors 0 self.mon) display warnings target huse
  rw [← h1] at h2
  refine ⟨_, target, hA, ht, ?_, h1, h2, ?_, ?_, h3⟩
  · intro m spec hm hspec
    have hdm : display = (m : Int) := hm
    have h := monAt_storedRegistry p.monitors self.mon m spec hcap hspec
    rw [← hdm, ht] at h
    exact Option.some.inj h
  · intro hr1 hr2
    rw [h2]
    exact centreAxis_of_inRange _ _ _ hr1 hr2
  · intro hr1 hr2
    rw [h2]
    exact centreAxis_of_inRange _ _ _ hr1 hr2

theorem centred_position_witness :
    ∃ r, Apply sampleFlags samplePlatform sys_video_c.init (sampleSet 1 0 false) = some r ∧
      r.state.vid.pos = (2160, 212) := by
  obtain ⟨r, target, h1, h2, -, -, -, h3, h4, -⟩ := centred_position sampleFlags
    samplePlatform sys_video_c.init (sampleSet 1 0 false) (by decide) (by decide) (by decide)
  have he := Apply_explicit sampleFlags samplePlatform sys_video_c.init (sampleSet 1 0 false)
    (by decide) 1 ⟨2, 1920, 0, 1280, 1024⟩ rfl rfl
  rw [he] at h1
  cases h1
  have ht : some target = some (⟨2, 1920, 0, 1280, 1024⟩ : MonitorSpec) := h2.symm.trans rfl
  cases ht
  exact ⟨_, he, Prod.ext ((h3 (by decide) (by decide)).trans (by decide))
    ((h4 (by decide) (by decide)).trans (by decide))⟩

/-- C19. Default-resolution substitution, for flag constants that are disjoint
32-bit masks and a monitor list that fits the sixteen slots of the registry: the
requested width alone decides.  With requested width 0 the resolution `Apply` goes on
with is the resolution of the target monitor, whatever the requested height; with a
requested width other than 0 it is the request unchanged, also when the requested
height is 0.  That resolution is the current resolution after the call, except that
the saved size takes its place when the use-saved-geometry flag is set and the saved
state is not maximised; the current resolution is the size asked of the windowing
layer. -/
theorem default_resolution_by_width (vf : VidFlags) (p : Platform) (self : sys_video_c)
    (set : sys_vidSet_s) (hvf : vf.WellFormed) (hcap : p.monitors.length ≤ 16) :
    ∃ r target, Apply vf p self set = some r ∧
      monAt r.state.mon r.state.cur.display = some target ∧
      r.state.defRes = (target.width, target.height) ∧
      sizeAsked r.calls = some r.state.cur.mode ∧
      (set.mode.1 = 0 →
        r.state.cur.mode =
          if flagSet set.flags vf.VID_USESAVED && !set.save.maximised then set.save.size
          else (target.width, target.height)) ∧
      (set.mode.1 ≠ 0 →
        r.state.cur.mode =
          if flagSet set.flags vf.VID_USESAVED && !set.save.maximised then set.save.size
          else set.mode) := by
  obtain ⟨display, warnings, target, -, ht, hA⟩ := Apply_resolved vf p self set hcap
  obtain ⟨hdef, -, hmode, hcall⟩ := applyWindow_fields vf p self set
    (storedRegistry p.monitors 0 self.mon) display warnings target
  rw [debuggerFlags_usesaved vf p set hvf] at hmode
  refine ⟨_, target, hA, ht, hdef, hcall, ?_, ?_⟩
  · intro hw
    rw [hmode]
    simp [requestedMode, hw]
  · intro hw
    rw [hmode]
    simp [requestedMode, hw]

theorem default_resolution_by_width_witness :
    ∃ r, Apply sampleFlags samplePlatform sys_video_c.init
        { sampleSet 0 0 false with mode := (0, 600) } = some r ∧
      r.state.cur.mode = (1920, 1080) := by
  obtain ⟨r, target, h1, h2, -, -, h4, -⟩ := default_resolution_by_width sampleFlags
    samplePlatform sys_video_c.init { sampleSet 0 0 false with mode := (0, 600) }
    (by decide) (by decide)
  have he := Apply_explicit sampleFlags samplePlatform sys_video_c.init
    { sampleSet 0 0 false with mode := (0, 600) } (by decide) 0 ⟨1, 0, 0, 1920, 1080⟩ rfl rfl
  rw [he] at h1
  cases h1
  have ht : some target = some (⟨1, 0, 0, 1920, 1080⟩ : MonitorSpec) := h2.symm.trans rfl
  cases ht
  exact ⟨_, he, (h4 rfl).trans (by decide)⟩

end SysVideo
